import Mathlib

/-!
Verification development for the conversational quotation assistant
(`backend/chatbot_sqlFinal.py` and `backend/main.py`).

The Python source is shallowly embedded below.  Machine floats are
modelled as exact rationals (`ℚ`); Python's `"%.2f"` / `"%.1f"`
formatting is modelled by round-half-to-even decimal rounding, and
`float(...)` / `int(...)` on the decimal-literal strings that actually
occur in this program are modelled by exact decimal parsers.  External
collaborators (the LLM calls, `json.loads`, and `fuzz.partial_ratio`
from the fuzzywuzzy library) are parameters of the embedded functions.
-/

attribute [local semireducible] Rat.add Rat.sub Rat.mul Rat.inv Rat.ofScientific

namespace QuoteBot

/-! ## Character and string utilities (Python `str` operations) -/

/-- Python whitespace as used by `str.strip` and the regex class `\s`
(space, tab, newline, carriage return, vertical tab, form feed). -/
def isPySpace (c : Char) : Bool :=
  c == ' ' || c == '\t' || c == '\n' || c == '\r' || c.toNat == 11 || c.toNat == 12

/-- ASCII decimal digit, the regex class `\d` on the ASCII strings of this program. -/
def isDigitC (c : Char) : Bool :=
  '0' ≤ c && c ≤ '9'

/-- Lower-casing a character list, modelling `str.lower()` on ASCII text. -/
def lowerL (l : List Char) : List Char :=
  l.map Char.toLower

/-- `str.lower()` on a `String`. -/
def lowerS (s : String) : String :=
  ⟨lowerL s.data⟩

/-- `str.strip()` : remove leading and trailing Python whitespace. -/
def stripL (l : List Char) : List Char :=
  ((l.dropWhile isPySpace).reverse.dropWhile isPySpace).reverse

/-- `str.strip()` on a `String`. -/
def stripS (s : String) : String :=
  ⟨stripL s.data⟩

/-- `str.rstrip(c)` : remove trailing copies of one character. -/
def rstripC (c : Char) (l : List Char) : List Char :=
  (l.reverse.dropWhile (· == c)).reverse

/-- Does `needle` occur at the very start of `hay`?  (Matching prefix test
used to implement Python's substring operator.) -/
def isSubAt : List Char → List Char → Bool
  | [], _ => true
  | _ :: _, [] => false
  | a :: as, b :: bs => a == b && isSubAt as bs

/-- Python's substring operator `needle in hay` on character lists. -/
def containsSeq (needle : List Char) : List Char → Bool
  | [] => needle.isEmpty
  | c :: cs => isSubAt needle (c :: cs) || containsSeq needle cs

/-- Python's `needle in hay` on `String`s. -/
def containsStr (needle hay : String) : Bool :=
  containsSeq needle.data hay.data

/-- Index of the first occurrence of `needle` in `hay`, if any
(leftmost-match semantics of Python's `str.find` / `str.split`). -/
def findSeqIdx (needle : List Char) : List Char → Option Nat
  | [] => if needle.isEmpty then some 0 else none
  | c :: cs =>
    if isSubAt needle (c :: cs) then some 0
    else (findSeqIdx needle cs).map (· + 1)

/-- `line.split(sep)[1]` for a non-empty separator: the text strictly between
the first occurrence of `sep` and the following occurrence (or the end).
Returns `none` when `sep` does not occur (Python would raise `IndexError`;
every call site in the source is guarded by `sep in line`). -/
def splitPart1 (sep line : List Char) : Option (List Char) :=
  (findSeqIdx sep line).map fun i =>
    let rest := line.drop (i + sep.length)
    match findSeqIdx sep rest with
    | some j => rest.take j
    | none => rest

/-- `text.split("\n")` : split at every newline, keeping empty pieces. -/
def splitNl : List Char → List (List Char)
  | [] => [[]]
  | c :: cs =>
    if c == '\n' then [] :: splitNl cs
    else
      match splitNl cs with
      | [] => [[c]]
      | l :: ls => (c :: l) :: ls

/-! ## Decimal numerals -/

/-- The decimal digit characters. -/
def digitChar : Nat → Char
  | 0 => '0' | 1 => '1' | 2 => '2' | 3 => '3' | 4 => '4'
  | 5 => '5' | 6 => '6' | 7 => '7' | 8 => '8' | _ => '9'

/-- Numeric value of a decimal digit character. -/
def charToDigit (c : Char) : Nat :=
  c.toNat - 48

/-- Decimal digits, least significant first, with an explicit fuel bound
(`n` itself suffices since `n / 10 < n` for positive `n`). -/
def natDigitsRevF (fuel n : Nat) : List Nat :=
  match fuel with
  | 0 => []
  | f + 1 => if n = 0 then [] else n % 10 :: natDigitsRevF f (n / 10)

/-- Decimal digits of `n`, least significant first. -/
def natDigitsRev (n : Nat) : List Nat :=
  natDigitsRevF n n

/-- Decimal numeral of `n`, modelling Python's `str` on a non-negative `int`. -/
def natToChars (n : Nat) : List Char :=
  if n = 0 then ['0'] else ((natDigitsRev n).map digitChar).reverse

/-- Value of a string of decimal digit characters. -/
def charsToNat (l : List Char) : Nat :=
  l.foldl (fun a c => a * 10 + charToDigit c) 0

/-- Python `int(s)` restricted to the inputs this program produces:
a non-empty string of decimal digits.  Anything else is `none`
(Python raises `ValueError`, which every call site catches). -/
def parseNat (l : List Char) : Option Nat :=
  if l ≠ [] ∧ l.all isDigitC then some (charsToNat l) else none

/-- Python `float(s)` restricted to the decimal literals this program
produces: optional digits, optional single dot, optional digits, at
least one digit overall.  Anything else is `none` (a raised
`ValueError` at the call sites, all of which catch it). -/
def parseFloatQ (l : List Char) : Option ℚ :=
  let ip := l.takeWhile (· ≠ '.')
  let rest := l.dropWhile (· ≠ '.')
  match rest with
  | [] =>
    if ip ≠ [] ∧ ip.all isDigitC then some (charsToNat ip) else none
  | _ :: fp =>
    if (ip ++ fp) ≠ [] ∧ ip.all isDigitC ∧ fp.all isDigitC then
      some ((charsToNat ip : ℚ) + (charsToNat fp : ℚ) / (10 : ℚ) ^ fp.length)
    else none

/-- Round-half-to-even to an integer, the rounding used by Python's
fixed-point `format`. -/
def rhe (q : ℚ) : ℤ :=
  if q - ⌊q⌋ < 1/2 then ⌊q⌋
  else if q - ⌊q⌋ > 1/2 then ⌊q⌋ + 1
  else if ⌊q⌋ % 2 = 0 then ⌊q⌋ else ⌊q⌋ + 1

/-- `q` rounded to two decimal places (half to even). -/
def round2 (q : ℚ) : ℚ :=
  (rhe (q * 100) : ℚ) / 100

/-- Two decimal digits with a leading zero if needed. -/
def pad2 (n : Nat) : List Char :=
  if n < 10 then ['0', digitChar n] else natToChars n

/-- Python `f"{q:.2f}"` for the non-negative amounts this program formats. -/
def fmt2 (q : ℚ) : List Char :=
  let n := (rhe (q * 100)).toNat
  natToChars (n / 100) ++ '.' :: pad2 (n % 100)

/-- Python `f"{q:.2f}"` as a `String`. -/
def fmt2S (q : ℚ) : String :=
  ⟨fmt2 q⟩

/-- Python `f"{q:.1f}".rstrip('0').rstrip('.')` for non-negative `q`:
one-decimal rounding with trailing zero / dot removal (the horsepower
literal formatting in `find_matching_services`). -/
def fmt1strip (q : ℚ) : List Char :=
  let n := (rhe (q * 10)).toNat
  rstripC '.' (rstripC '0' (natToChars (n / 10) ++ '.' :: [digitChar (n % 10)]))

/-- Join lines with a newline between consecutive pieces (a section of
`splitNl`, used to state line decompositions). -/
def nlJoin : List (List Char) → List Char
  | [] => []
  | [l] => l
  | l :: ls => l ++ '\n' :: nlJoin ls

/-! ## The regex scanners of `find_matching_services`

The source matches `(\d+\.?\d*)HP(?!\s+TO)` (with `re.findall`) and
`(\d+\.?\d*)HP\s+TO\s+(\d+\.?\d*)HP` (with `re.search`), both
case-insensitively, over item descriptions.  The scanners below
implement exactly these patterns: a greedy attempt at each position,
advancing one character on failure (leftmost-match, non-overlapping
continuation after a match), which is the behaviour of Python's `re`
on these backtracking-free patterns. -/

/-- Negative lookahead `(?!\s+TO)` (case-insensitive): does `l` start with
one or more whitespace characters followed by `TO`? -/
def hasSpTO (l : List Char) : Bool :=
  match l.takeWhile isPySpace, l.dropWhile isPySpace with
  | _ :: _, a :: b :: _ => a.toLower == 't' && b.toLower == 'o'
  | _, _ => false

/-- One attempt of `(\d+\.?\d*)HP(?!\s+TO)` anchored at the start of `l`:
on success returns the captured number string and the remainder after
`HP`. -/
def tryExactAt (l : List Char) : Option (List Char × List Char) :=
  match l with
  | [] => none
  | c :: _ =>
    if isDigitC c then
      let run1 := l.takeWhile isDigitC
      let r1 := l.dropWhile isDigitC
      let numRest : List Char × List Char :=
        match r1 with
        | '.' :: t => (run1 ++ '.' :: t.takeWhile isDigitC, t.dropWhile isDigitC)
        | _ => (run1, r1)
      match numRest.2 with
      | a :: b :: rest =>
        if a.toLower == 'h' && b.toLower == 'p' && !hasSpTO rest then
          some (numRest.1, rest)
        else none
      | _ => none
    else none

/-- Fuelled scan for `re.findall(r'(\d+\.?\d*)HP(?!\s+TO)', s, re.IGNORECASE)`. -/
def scanExactGo : Nat → List Char → List (List Char)
  | 0, _ => []
  | _, [] => []
  | fuel + 1, c :: cs =>
    match tryExactAt (c :: cs) with
    | some (num, rest) => num :: scanExactGo fuel rest
    | none => scanExactGo fuel cs

/-- `re.findall(r'(\d+\.?\d*)HP(?!\s+TO)', s, re.IGNORECASE)`: the list of
captured number strings, in order of occurrence. -/
def extractExactHPs (s : List Char) : List (List Char) :=
  scanExactGo s.length s

/-- One attempt of `(\d+\.?\d*)HP\s+TO\s+(\d+\.?\d*)HP` anchored at the
start of `l`: on success returns the two captured number strings. -/
def tryRangeAt (l : List Char) : Option (List Char × List Char) :=
  match l with
  | [] => none
  | c :: _ =>
    if isDigitC c then
      let run1 := l.takeWhile isDigitC
      let r1 := l.dropWhile isDigitC
      let nr1 : List Char × List Char :=
        match r1 with
        | '.' :: t => (run1 ++ '.' :: t.takeWhile isDigitC, t.dropWhile isDigitC)
        | _ => (run1, r1)
      match nr1.2 with
      | a :: b :: r3 =>
        if a.toLower == 'h' && b.toLower == 'p' then
          if (r3.takeWhile isPySpace).isEmpty then none
          else
            match r3.dropWhile isPySpace with
            | t :: o :: r5 =>
              if t.toLower == 't' && o.toLower == 'o' then
                if (r5.takeWhile isPySpace).isEmpty then none
                else
                  match r5.dropWhile isPySpace with
                  | d :: _ =>
                    if isDigitC d then
                      let r6 := r5.dropWhile isPySpace
                      let run2 := r6.takeWhile isDigitC
                      let r7 := r6.dropWhile isDigitC
                      let nr2 : List Char × List Char :=
                        match r7 with
                        | '.' :: t2 => (run2 ++ '.' :: t2.takeWhile isDigitC, t2.dropWhile isDigitC)
                        | _ => (run2, r7)
                      match nr2.2 with
                      | h2 :: p2 :: _ =>
                        if h2.toLower == 'h' && p2.toLower == 'p' then some (nr1.1, nr2.1)
                        else none
                      | _ => none
                    else none
                  | _ => none
              else none
            | _ => none
        else none
      | _ => none
    else none

/-- Fuelled scan for `re.search` of the range pattern. -/
def findHPRangeGo : Nat → List Char → Option (List Char × List Char)
  | 0, _ => none
  | _, [] => none
  | fuel + 1, c :: cs =>
    match tryRangeAt (c :: cs) with
    | some g => some g
    | none => findHPRangeGo fuel cs

/-- `re.search(r'(\d+\.?\d*)HP\s+TO\s+(\d+\.?\d*)HP', s, re.IGNORECASE)`:
the first (leftmost) match's two captured groups, if any. -/
def findHPRange (s : List Char) : Option (List Char × List Char) :=
  findHPRangeGo s.length s

/-- One attempt of `(\d+(\.\d+)?)\s*hp` anchored at the start of `l`
(target text already lower-cased by the caller, as in the source). -/
def tryHpMsgAt (l : List Char) : Option (List Char) :=
  match l with
  | [] => none
  | c :: _ =>
    if isDigitC c then
      let run1 := l.takeWhile isDigitC
      let r1 := l.dropWhile isDigitC
      let numRest : List Char × List Char :=
        match r1 with
        | '.' :: t =>
          if (t.takeWhile isDigitC).isEmpty then (run1, r1)
          else (run1 ++ '.' :: t.takeWhile isDigitC, t.dropWhile isDigitC)
        | _ => (run1, r1)
      match numRest.2.dropWhile isPySpace with
      | a :: b :: _ => if a == 'h' && b == 'p' then some numRest.1 else none
      | _ => none
    else none

/-- `re.search(r'(\d+(\.\d+)?)\s*hp', s)` on lower-cased text: the first
match's captured number string, if any. -/
def hpMsgSearchGo : Nat → List Char → Option (List Char)
  | 0, _ => none
  | _, [] => none
  | fuel + 1, c :: cs =>
    match tryHpMsgAt (c :: cs) with
    | some num => some num
    | none => hpMsgSearchGo fuel cs

/-- Leftmost match of the horsepower pattern in a message. -/
def hpMsgSearch (s : List Char) : Option (List Char) :=
  hpMsgSearchGo s.length s

/-- `re.match(r'^\d+(\.\d+)?$', s)`: is `s` a bare decimal numeral? -/
def isBareNum (l : List Char) : Bool :=
  let ip := l.takeWhile isDigitC
  let r := l.dropWhile isDigitC
  !ip.isEmpty &&
    (r.isEmpty ||
      (match r with
       | '.' :: t => !t.isEmpty && t.all isDigitC
       | _ => false))

/-- `re.match(r'^\s*(\d+)\s*$', s)`: an integer surrounded by optional
whitespace; returns its value. -/
def intWithSpaces (l : List Char) : Option Nat :=
  let l1 := l.dropWhile isPySpace
  let d := l1.takeWhile isDigitC
  let r := l1.dropWhile isDigitC
  if !d.isEmpty && r.all isPySpace then some (charsToNat d) else none

/-- Python `str(float(s))` for a bare decimal numeral `s`: canonical
decimal form with leading zeros removed, trailing fractional zeros
removed, and an explicit `.0` for integral values.  (Exact for the
short decimals this program handles.) -/
def canonNumStr (l : List Char) : List Char :=
  let ip := l.takeWhile isDigitC
  let r := l.dropWhile isDigitC
  let fp : List Char :=
    match r with
    | '.' :: t => rstripC '0' t
    | _ => []
  natToChars (charsToNat ip) ++ '.' :: (if fp.isEmpty then ['0'] else fp)

/-- `float(s.strip())`, the way the matcher converts a stored `hp_size`. -/
def parseFloatPy (s : String) : Option ℚ :=
  parseFloatQ (stripL s.data)

/-! ## Data model -/

/-- Truthiness of an optional string slot: Python's `not info[field]`
is true for a missing key, `None`, and the empty string. -/
def strFilled : Option String → Bool
  | none => false
  | some s => !(s == "")

/-- Truthiness of an optional integer slot: `0` is falsy in Python. -/
def natFilled : Option Nat → Bool
  | none => false
  | some n => n != 0

/-- The slot dictionary built by the entity extractor and held in the
conversation context (`category`, `unit_type`, `service_type`,
`hp_size`, `brand`, `fixture_type`, `issue_type`, `quantity`).
`none` models both an absent key and a `None` value; `hp_size` is
kept as the string the source stores, `quantity` as the integer the
source stores. -/
structure Slots where
  category : Option String := none
  unit_type : Option String := none
  service_type : Option String := none
  hp_size : Option String := none
  brand : Option String := none
  fixture_type : Option String := none
  issue_type : Option String := none
  quantity : Option Nat := none
deriving DecidableEq

/-- The all-empty slot set (`{}` in the source). -/
def emptySlots : Slots := {}

/-- One historical line item (`ServiceRecord`), a row of the data frame. -/
structure Row where
  invoice_no : String
  category : String
  item_description : String
  unit_price : ℚ
  subtotal : ℚ
  tax : ℚ
  total : ℚ
deriving DecidableEq

/-- One entry of the list returned by `find_matching_services`. -/
structure MatchResult where
  invoice_no : String
  category : String
  description : String
  unit_price : ℚ
  subtotal : ℚ
  tax : ℚ
  total : ℚ
  match_score : ℚ
deriving DecidableEq

/-! ## Slot-Completeness Resolver (`determine_missing_info_with_llm`) -/

/-- Result shape of `determine_missing_info_with_llm`. -/
structure MissResult where
  has_enough_info : Bool
  missing_key : Option String
  next_question : Option String
deriving DecidableEq

/-- The fixed required-slot lists by category (the `required_fields`
dictionary in the source, in its declared order). -/
def required_fields : String → Option (List String)
  | "Aircon Servicing" => some ["unit_type", "service_type", "hp_size", "quantity"]
  | "Aircon Installation" => some ["unit_type", "hp_size", "brand", "quantity"]
  | "Aircon Repair" => some ["unit_type", "issue_type", "quantity"]
  | "Plumber" => some ["fixture_type", "issue_type", "quantity"]
  | _ => none

/-- Truthiness of a slot selected by its field name, i.e.
`field in info and info[field]`. -/
def slotTruthy (info : Slots) : String → Bool
  | "category" => strFilled info.category
  | "unit_type" => strFilled info.unit_type
  | "service_type" => strFilled info.service_type
  | "hp_size" => strFilled info.hp_size
  | "brand" => strFilled info.brand
  | "fixture_type" => strFilled info.fixture_type
  | "issue_type" => strFilled info.issue_type
  | "quantity" => natFilled info.quantity
  | _ => false

/-- The canned question generated for a missing field (the `if field ==`
chain inside the resolver's loop).  Where the source interpolates
`info.get('fixture_type', default)`, the deployed flow always has the
slot filled when the question is generated (fixture/issue precede
quantity in the declared order), so the default is used for `none`. -/
def questionFor (category : String) (info : Slots) : String → String
  | "unit_type" => "What type of aircon unit is it (e.g., window, split, cassette)?"
  | "service_type" => "What type of service do you need (e.g., basic servicing, chemical cleaning, gas top-up)?"
  | "hp_size" => "What is the horsepower (HP) of the aircon unit?"
  | "quantity" =>
    if category = "Plumber" then
      let ft := info.fixture_type.getD "plumbing fixtures"
      s!"How many {ft}s need service?"
    else "How many aircon units do you want to service?"
  | "brand" => "What brand of aircon do you want to install?"
  | "fixture_type" => "What type of plumbing fixture needs service (e.g., toilet, sink, pipe)?"
  | "issue_type" =>
    if category = "Plumber" then
      let ft := info.fixture_type.getD "plumbing fixture"
      s!"What is the issue with your {ft} (e.g., leaking, clogged, broken)?"
    else "What is the issue with your aircon unit (e.g., not cooling, noise, leaking)?"
  | _ => ""

/-- The resolver's loop over the category's required fields: return the
first missing field with its question, or report completeness. -/
def firstMissingLoop (category : String) (info : Slots) : List String → MissResult
  | [] => ⟨true, none, none⟩
  | f :: fs =>
    if !slotTruthy info f then ⟨false, some f, some (questionFor category info f)⟩
    else firstMissingLoop category info fs

/-- `determine_missing_info_with_llm`.  The path taken for a category
outside the `required_fields` table issues an LLM call (lines 640–727
of the source); that external-collaborator-dependent remainder is the
parameter `llmPath`. -/
def determine_missing_info (llmPath : Slots → MissResult) (info : Slots) : MissResult :=
  if !strFilled info.category then
    ⟨false, some "category",
      some "What type of service are you looking for? (e.g., Aircon Servicing, Aircon Installation, Aircon Repair, or Plumber)"⟩
  else
    let category := info.category.getD ""
    match required_fields category with
    | some fields => firstMissingLoop category info fields
    | none => llmPath info

/-! ## Fuzzy Service Matcher (`find_matching_services`) -/

/-- Search-term contribution of `unit_type` (lines 757–764). -/
def unitTypeTerms (info : Slots) (st : List String) : List String :=
  if strFilled info.unit_type then
    let u := lowerS (info.unit_type.getD "")
    if u = "wall" then st ++ ["wall mounted"]
    else if u = "ceiling" then st ++ ["ceiling"]
    else if u = "cassette" then st ++ ["cassette"]
    else st
  else st

/-- Search-term contribution of `service_type` (lines 767–774). -/
def serviceTypeTerms (info : Slots) (st : List String) : List String :=
  if strFilled info.service_type then
    let s := lowerS (info.service_type.getD "")
    if s = "basic_servicing" then st ++ ["basic servicing"]
    else if s = "chemical_cleaning" then st ++ ["chemical"]
    else if s = "gas_topup" then st ++ ["gas"]
    else st
  else st

/-- The exact-token phase of the horsepower handling (lines 780–790):
for each candidate description, append the first `N HP` token whose
value is within `0.1` of the request, and record whether any was
found. -/
def hpExactFold (hp : ℚ) (descs : List String) (st : List String) : List String × Bool :=
  descs.foldl
    (fun acc d =>
      match (extractExactHPs d.data).find?
          (fun tok => decide (|(parseFloatQ tok).getD 0 - hp| < 1/10)) with
      | some tok => (acc.1 ++ [String.mk (tok ++ ['H', 'P'])], true)
      | none => acc)
    (st, false)

/-- The range phase of the horsepower handling (lines 793–803): append
each description's first `A HP TO B HP` range containing the request,
deduplicating against the accumulated term list. -/
def hpRangeFold (hp : ℚ) (descs : List String) (st : List String) : List String :=
  descs.foldl
    (fun acc d =>
      match findHPRange d.data with
      | some g =>
        if (parseFloatQ g.1).getD 0 ≤ hp ∧ hp ≤ (parseFloatQ g.2).getD 0 then
          let rterm := String.mk (g.1 ++ ("HP TO ".data ++ g.2 ++ ['H', 'P']))
          if rterm ∉ acc then acc ++ [rterm] else acc
        else acc
      | none => acc)
    st

/-- The complete horsepower block (lines 777–809): exact phase, range
phase only when no exact token was found, then the literal fallback
whenever the term list is empty or no exact token was found. -/
def hpTerms (hp : ℚ) (descs : List String) (st : List String) : List String :=
  let exact := hpExactFold hp descs st
  let st2 := if exact.2 then exact.1 else hpRangeFold hp descs exact.1
  if st2.isEmpty || !exact.2 then st2 ++ [String.mk (fmt1strip hp ++ ['H', 'P'])]
  else st2

/-- Search-term contributions of `brand`, `fixture_type` and `issue_type`
(lines 812–821), appended after the horsepower block. -/
def afterTerms (info : Slots) (st : List String) : List String :=
  let st4 := if strFilled info.brand then st ++ [info.brand.getD ""] else st
  let st5 := if strFilled info.fixture_type then st4 ++ [info.fixture_type.getD ""] else st4
  if strFilled info.issue_type then st5 ++ [info.issue_type.getD ""] else st5

/-- Search-term construction of `find_matching_services` (lines 753–825).
`none` models the `ValueError` raised by `float(info['hp_size'])` on a
non-numeric string, which the enclosing handler turns into `[]`. -/
def buildSearchTerms (info : Slots) (category_df : List Row) : Option (List String) :=
  let descs := category_df.map (·.item_description)
  let st2 := serviceTypeTerms info (unitTypeTerms info [])
  let hpStep : Option (List String) :=
    if strFilled info.hp_size then
      match parseFloatPy (info.hp_size.getD "") with
      | none => none
      | some hp => some (hpTerms hp descs st2)
    else some st2
  match hpStep with
  | none => none
  | some st3 => some (afterTerms info st3)

/-- Modelled from the spec's wording of the exact-token stage, for
comparison with the source's fold: the first `N HP` token of each
description whose value is within `0.1` of the request. -/
def exactTermsSpec (hp : ℚ) (descs : List String) : List String :=
  descs.filterMap fun d =>
    ((extractExactHPs d.data).find? fun tok =>
      decide (|(parseFloatQ tok).getD 0 - hp| < 1/10)).map fun tok => String.mk (tok ++ ['H', 'P'])

/-- The per-row score (lines 832–843): `100/num_terms` per term occurring
as a case-insensitive substring of the description; if that total is
zero, the fuzzy partial-ratio sum divided by `num_terms` instead.
`fz` is the external `fuzz.partial_ratio`. -/
def rowScore (fz : String → String → ℕ) (terms : List String) (descLower : String) : ℚ :=
  let base := terms.foldl
    (fun acc t =>
      if containsSeq (lowerS t).data descLower.data then acc + 100 / (terms.length : ℚ)
      else acc)
    0
  if base = 0 then
    terms.foldl (fun acc t => acc + (fz (lowerS t) descLower : ℚ) / (terms.length : ℚ)) 0
  else base

/-- The match record built for a qualifying row (lines 847–856). -/
def mkMatch (row : Row) (score : ℚ) : MatchResult :=
  ⟨row.invoice_no, row.category, row.item_description, row.unit_price,
    row.subtotal, row.tax, row.total, score⟩

/-- `find_matching_services`.  `fz` is the external `fuzz.partial_ratio`;
`df` is the cached data frame.  The final `matches.sort(key=score,
reverse=True)` is Python's stable sort, modelled by `mergeSort` with
the reversed comparison. -/
def find_matching_services (fz : String → String → ℕ) (df : List Row) (info : Slots) :
    List MatchResult :=
  if !strFilled info.category then []
  else
    let category := info.category.getD ""
    let category_df := df.filter (fun r => r.category == category)
    if category_df.isEmpty then []
    else
      match buildSearchTerms info category_df with
      | none => []
      | some search_terms =>
        if search_terms.isEmpty then []
        else
          let ms := category_df.filterMap (fun row =>
            let score := rowScore fz search_terms (lowerS row.item_description)
            if (30 : ℚ) ≤ score then some (mkMatch row score) else none)
          ms.mergeSort (fun a b => decide (b.match_score ≤ a.match_score))

/-! ## Quotation Formatter (`generate_quotation`) -/

/-- `generate_quotation` (lines 867–888): `subtotal = unit_price * quantity`,
`tax = subtotal * 0.08`, `total = subtotal + tax`, rendered into the
fixed-label text block. -/
def generate_quotation (service : MatchResult) (quantity : Nat) : String :=
  let description := service.description
  let unit_price := service.unit_price
  let subtotal := unit_price * (quantity : ℚ)
  let tax := subtotal * 0.08
  let total := subtotal + tax
  "SERVICE QUOTATION\n------------------\nService Description: " ++ description ++
    "\nQuantity: " ++ String.mk (natToChars quantity) ++
    "\nUnit Price (RM): " ++ fmt2S unit_price ++
    "\nSubtotal: " ++ fmt2S subtotal ++
    "\nTax (8%): " ++ fmt2S tax ++
    "\nTotal: " ++ fmt2S total ++
    "\n\nThis quotation is based on our database of similar services.\nAdditional charges may apply depending on specific requirements.\n"

/-! ## Downstream parser (`parse_quotation_text` in `main.py`) -/

/-- Result of `parse_quotation_text`. -/
structure ParsedQ where
  service_description : String
  quantity : Nat
  unit_price : ℚ
  subtotal : ℚ
  tax : ℚ
  total : ℚ
deriving DecidableEq

/-- The parser's loop state: the continuation flag, accumulated
description lines, and the numeric fields with their defaults. -/
structure PState where
  started : Bool := false
  descLines : List (List Char) := []
  quantity : Nat := 1
  unit_price : ℚ := 0
  subtotal : ℚ := 0
  tax : ℚ := 0
  total : ℚ := 0
deriving DecidableEq

/-- The field labels checked by the description-continuation test. -/
def contKeys : List String :=
  ["Quantity:", "Unit Price (RM):", "Subtotal:", "Tax (8%):", "Total:"]

/-- One iteration of the parser's line loop (`main.py` lines 112–145). -/
def parseStep (st : PState) (line0 : List Char) : PState :=
  let line := stripL line0
  if containsSeq "Service Description:".data line then
    { st with
      started := true,
      descLines := st.descLines ++ [stripL ((splitPart1 "Service Description:".data line).getD [])] }
  else if st.started && !(contKeys.any fun k => containsSeq k.data line) then
    { st with descLines := st.descLines ++ [line] }
  else if containsSeq "Quantity:".data line then
    let st1 := { st with started := false }
    match parseNat (stripL ((splitPart1 "Quantity:".data line).getD [])) with
    | some n => { st1 with quantity := n }
    | none => st1
  else if containsSeq "Unit Price (RM):".data line then
    match parseFloatQ (stripL ((splitPart1 "Unit Price (RM):".data line).getD [])) with
    | some v => { st with unit_price := v }
    | none => st
  else if containsSeq "Subtotal:".data line then
    match parseFloatQ (stripL ((splitPart1 "Subtotal:".data line).getD [])) with
    | some v => { st with subtotal := v }
    | none => st
  else if containsSeq "Tax (8%):".data line then
    match parseFloatQ (stripL ((splitPart1 "Tax (8%):".data line).getD [])) with
    | some v => { st with tax := v }
    | none => st
  else if containsSeq "Total:".data line then
    match parseFloatQ (stripL ((splitPart1 "Total:".data line).getD [])) with
    | some v => { st with total := v }
    | none => st
  else st

/-- The parser's reconstruction of missing numeric fields
(`main.py` lines 150–158), using the same 8% convention. -/
def parseFixups (st : PState) : PState :=
  let st1 :=
    if st.subtotal = 0 ∧ st.unit_price > 0 ∧ st.quantity > 0 then
      { st with subtotal := st.unit_price * (st.quantity : ℚ) }
    else st
  let st2 := if st1.tax = 0 ∧ st1.subtotal > 0 then { st1 with tax := st1.subtotal * 0.08 } else st1
  if st2.total = 0 ∧ st2.subtotal > 0 ∧ st2.tax > 0 then
    { st2 with total := st2.subtotal + st2.tax }
  else st2

/-- `parse_quotation_text` (`main.py` lines 98–167). -/
def parse_quotation_text (s : String) : ParsedQ :=
  let st := parseFixups ((splitNl s.data).foldl parseStep {})
  ⟨⟨List.intercalate [' '] st.descLines⟩, st.quantity, st.unit_price, st.subtotal, st.tax, st.total⟩

/-! ## Entity Extractor (`extract_entities_with_llm` and helpers) -/

/-- `handle_direct_response` (lines 913–1000): deterministic handling of a
short answer to the previously asked question. -/
def handle_direct_response (message : String) (last_question_type : String) : Slots :=
  let ml := stripS (lowerS message)
  if last_question_type = "unit_type" then
    if ml ∈ ["wall", "wall mounted", "wall-mounted"] then { unit_type := some "wall" }
    else if ml ∈ ["window", "window unit", "window-unit", "window type"] then { unit_type := some "window" }
    else if ml ∈ ["ceiling", "ceiling mounted", "ceiling-mounted"] then { unit_type := some "ceiling" }
    else if ml ∈ ["cassette", "cassette type", "cassette-type"] then { unit_type := some "cassette" }
    else if ml ∈ ["split", "split unit", "split-unit"] then { unit_type := some "wall" }
    else {}
  else if last_question_type = "service_type" then
    if ["basic", "general", "normal", "regular", "standard"].any (fun t => containsStr t ml) then
      { service_type := some "basic_servicing" }
    else if ["chemical", "deep", "thorough", "complete"].any (fun t => containsStr t ml) then
      { service_type := some "chemical_cleaning" }
    else if ["gas", "top up", "refill", "recharge"].any (fun t => containsStr t ml) then
      { service_type := some "gas_topup" }
    else if ["install", "installation", "setup", "set up"].any (fun t => containsStr t ml) then
      { service_type := some "installation" }
    else if ["repair", "fix", "troubleshoot"].any (fun t => containsStr t ml) then
      { service_type := some "repair" }
    else {}
  else if last_question_type = "hp_size" then
    match hpMsgSearch ml.data with
    | some num => { hp_size := some ⟨num⟩ }
    | none => if isBareNum ml.data then { hp_size := some ml } else {}
  else if last_question_type = "quantity" then
    if ml.data ≠ [] ∧ ml.data.all isDigitC then { quantity := some (charsToNat ml.data) }
    else
      match [("one", 1), ("two", 2), ("three", 3), ("four", 4), ("five", 5), ("six", 6),
          ("seven", 7), ("eight", 8), ("nine", 9), ("ten", 10)].find?
          (fun p => containsStr p.1 ml) with
      | some p => { quantity := some p.2 }
      | none => {}
  else if last_question_type = "brand" then
    match ["daikin", "panasonic", "samsung", "lg", "mitsubishi", "hitachi", "toshiba",
        "sharp", "carrier"].find? (fun b => containsStr b ml) with
    | some b => { brand := some b }
    | none => {}
  else if last_question_type = "fixture_type" then
    if ["toilet", "wc", "bathroom"].any (fun t => containsStr t ml) then { fixture_type := some "toilet" }
    else if ["sink", "basin", "tap", "faucet"].any (fun t => containsStr t ml) then { fixture_type := some "sink" }
    else if ["pipe", "piping", "water pipe", "drain"].any (fun t => containsStr t ml) then { fixture_type := some "pipe" }
    else if ["water heater", "heater", "hot water"].any (fun t => containsStr t ml) then { fixture_type := some "water_heater" }
    else if ["water tank", "tank", "storage"].any (fun t => containsStr t ml) then { fixture_type := some "water_tank" }
    else {}
  else if last_question_type = "issue_type" then
    if ["leak", "leaking", "water leak"].any (fun t => containsStr t ml) then { issue_type := some "leaking" }
    else if ["clog", "clogged", "blocked", "blockage"].any (fun t => containsStr t ml) then { issue_type := some "clogged" }
    else if ["broken", "damaged", "not working"].any (fun t => containsStr t ml) then { issue_type := some "broken" }
    else if ["not cooling", "no cool", "warm air"].any (fun t => containsStr t ml) then { issue_type := some "not_cooling" }
    else if ["noise", "noisy", "loud", "sound"].any (fun t => containsStr t ml) then { issue_type := some "noise" }
    else {}
  else {}

/-- Truncation of a non-negative rational to an integer, Python's
`int(float)`. -/
def ratFloorNat (v : ℚ) : Nat :=
  ⌊v⌋.toNat

/-- Manual rule 1 (line 479): default the category to Aircon Servicing
when the message mentions "aircon" and no `category` key is present. -/
def mCategoryRule (message : String) (e : Slots) : Slots :=
  if containsStr "aircon" (stripS (lowerS message)) ∧ !e.category.isSome then
    { e with category := some "Aircon Servicing" }
  else e

/-- Manual rule 2 (lines 483–492): unit-type keywords. -/
def mUnitRule (message : String) (e : Slots) : Slots :=
  let ml := lowerS message
  if containsStr "wall mounted" ml ∨ containsStr "wall-mounted" ml then { e with unit_type := some "wall" }
  else if containsStr "window" ml then { e with unit_type := some "window" }
  else if containsStr "cassette" ml then { e with unit_type := some "cassette" }
  else if containsStr "ceiling" ml then { e with unit_type := some "ceiling" }
  else if containsStr "split" ml ∧ containsStr "unit" ml then { e with unit_type := some "wall" }
  else e

/-- Manual rule 3 (lines 495–510): the horsepower pattern and the
lone-number heuristic.  `lqt` is `context.get('last_question_type')`. -/
def mHpRule (message : String) (lqt : Option String) (e : Slots) : Slots :=
  match hpMsgSearch (lowerS message).data with
  | some num => { e with hp_size := some ⟨num⟩ }
  | none =>
    if isBareNum (stripL message.data) then
      match parseFloatQ (stripL message.data) with
      | some v =>
        if lqt = some "hp_size" then { e with hp_size := some ⟨canonNumStr (stripL message.data)⟩ }
        else if lqt = some "quantity" then { e with quantity := some (ratFloorNat v) }
        else if 0 < v ∧ v ≤ 5 then { e with hp_size := some ⟨canonNumStr (stripL message.data)⟩ }
        else if 0 < v ∧ v ≤ 20 then { e with quantity := some (ratFloorNat v) }
        else e
      | none => e
    else e

/-- Manual rule 4 (lines 512–514): a bare integer message becomes the
quantity when no `hp_size` key is present. -/
def mQtyRule (message : String) (e : Slots) : Slots :=
  match intWithSpaces message.data with
  | some n => if !e.hp_size.isSome then { e with quantity := some n } else e
  | none => e

/-- Manual rule 5 (lines 517–522): service-type keywords. -/
def mServiceRule (message : String) (e : Slots) : Slots :=
  let ml := lowerS message
  if containsStr "general cleaning" ml ∨ containsStr "basic cleaning" ml then
    { e with service_type := some "basic_servicing" }
  else if containsStr "chemical" ml ∨ containsStr "chemical wash" ml then
    { e with service_type := some "chemical_cleaning" }
  else if containsStr "gas" ml ∨ containsStr "top up" ml ∨ containsStr "refill" ml then
    { e with service_type := some "gas_topup" }
  else e

/-- Manual rule 6 (lines 525–530): fixture-type keywords. -/
def mFixtureRule (message : String) (e : Slots) : Slots :=
  let ml := lowerS message
  if containsStr "toilet" ml ∨ containsStr "wc" ml then { e with fixture_type := some "toilet" }
  else if containsStr "sink" ml ∨ containsStr "basin" ml then { e with fixture_type := some "sink" }
  else if containsStr "pipe" ml ∨ containsStr "drain" ml then { e with fixture_type := some "pipe" }
  else e

/-- Manual rule 7 (lines 533–536): issue-type keywords. -/
def mIssueRule (message : String) (e : Slots) : Slots :=
  let ml := lowerS message
  if containsStr "leak" ml then { e with issue_type := some "leaking" }
  else if containsStr "clog" ml ∨ containsStr "block" ml then { e with issue_type := some "clogged" }
  else e

/-- The manual keyword pass layered on the steps 1–3 outcome
(lines 478–536), in source order. -/
def manualRules (message : String) (lqt : Option String) (e : Slots) : Slots :=
  mIssueRule message (mFixtureRule message (mServiceRule message
    (mQtyRule message (mHpRule message lqt (mUnitRule message (mCategoryRule message e))))))

/-- An opening brace, written via its code point. -/
def lbrace : Char := Char.ofNat 123

/-- A closing brace, written via its code point. -/
def rbrace : Char := Char.ofNat 125

/-- `re.search(r'({[\s\S]*})', text)`: the greedy slice from the first
opening brace to the last closing brace after it, if any. -/
def jsonSlice (text : List Char) : Option (List Char) :=
  match findSeqIdx [lbrace] text, findSeqIdx [rbrace] text.reverse with
  | some i, some jr =>
    let j := text.length - 1 - jr
    if i < j then some ((text.take (j + 1)).drop i) else none
  | _, _ => none

/-- The regex class `[:\s]`. -/
def isColonSpace (c : Char) : Bool :=
  c == ':' || isPySpace c

/-- The regex class `[a-zA-Z0-9_\.]`. -/
def isWordDot (c : Char) : Bool :=
  c.isAlpha || isDigitC c || c == '_' || c == '.'

/-- Case-insensitive prefix test. -/
def isSubAtCI : List Char → List Char → Bool
  | [], _ => true
  | _ :: _, [] => false
  | a :: as, b :: bs => a.toLower == b.toLower && isSubAtCI as bs

/-- One attempt of `field[:\s]+([a-zA-Z0-9_\.]+)` (case-insensitive)
anchored at the start of `l`. -/
def tryFieldAt (field l : List Char) : Option (List Char) :=
  if isSubAtCI field l then
    let r := l.drop field.length
    if (r.takeWhile isColonSpace).isEmpty then none
    else
      let cap := (r.dropWhile isColonSpace).takeWhile isWordDot
      if cap.isEmpty then none else some cap
  else none

/-- Leftmost match of the field-capture pattern. -/
def fieldSearchGo (field : List Char) : Nat → List Char → Option (List Char)
  | 0, _ => none
  | _, [] => none
  | fuel + 1, c :: cs =>
    match tryFieldAt field (c :: cs) with
    | some cap => some cap
    | none => fieldSearchGo field fuel cs

/-- `re.search(rf"{field}[:\s]+([a-zA-Z0-9_\.]+)", text, re.IGNORECASE)`. -/
def fieldSearch (field text : List Char) : Option (List Char) :=
  fieldSearchGo field text.length text

/-- The regex-based manual backfill used when JSON parsing of the LLM
reply fails (lines 462–476).  The captured `quantity` token is kept
only when numeric, matching the integer slot of the model. -/
def fallbackExtract (categories : List String) (text : List Char) : Slots :=
  let tl := lowerL text
  let e0 : Slots := {}
  let e1 :=
    if containsSeq "category".data tl then
      match categories.find? (fun c => containsSeq (lowerS c).data tl) with
      | some c => { e0 with category := some c }
      | none => e0
    else e0
  let e2 :=
    if containsSeq "unit_type".data tl then
      match fieldSearch "unit_type".data text with
      | some cap => { e1 with unit_type := some ⟨cap⟩ }
      | none => e1
    else e1
  let e3 :=
    if containsSeq "service_type".data tl then
      match fieldSearch "service_type".data text with
      | some cap => { e2 with service_type := some ⟨cap⟩ }
      | none => e2
    else e2
  let e4 :=
    if containsSeq "hp_size".data tl then
      match fieldSearch "hp_size".data text with
      | some cap => { e3 with hp_size := some ⟨cap⟩ }
      | none => e3
    else e3
  let e5 :=
    if containsSeq "brand".data tl then
      match fieldSearch "brand".data text with
      | some cap => { e4 with brand := some ⟨cap⟩ }
      | none => e4
    else e4
  let e6 :=
    if containsSeq "fixture_type".data tl then
      match fieldSearch "fixture_type".data text with
      | some cap => { e5 with fixture_type := some ⟨cap⟩ }
      | none => e5
    else e5
  let e7 :=
    if containsSeq "issue_type".data tl then
      match fieldSearch "issue_type".data text with
      | some cap => { e6 with issue_type := some ⟨cap⟩ }
      | none => e6
    else e6
  if containsSeq "quantity".data tl then
    match fieldSearch "quantity".data text with
    | some cap =>
      match parseNat cap with
      | some n => { e7 with quantity := some n }
      | none => e7
    | none => e7
  else e7

/-- The external collaborators of the extractor: LLM initialization,
the data-analysis cache, the text-completion call, and `json.loads`.
An `Except.error` models a raised exception; `jsonParse = none` models
`json.JSONDecodeError`. -/
structure ExtractorEnv where
  llmInit : Except Unit Unit
  analyze : Except Unit (List String)
  invoke : String → Except Unit String
  jsonParse : String → Option Slots

/-- The body of `extract_entities_with_llm` (lines 399–539), i.e. the
content of its `try` block; an `Except.error` is a raised exception
reaching the outer handler.  `lqt` is `context.get('last_question_type')`
of the optional session context. -/
def extractBody (env : ExtractorEnv) (message : String) (lqt : Option String) :
    Except Unit Slots :=
  if stripS (lowerS message) = "aircon" then .ok { category := some "Aircon Servicing" }
  else
    let direct : Slots := if strFilled lqt then handle_direct_response message (lqt.getD "") else {}
    if direct ≠ emptySlots then .ok direct
    else do
      let _ ← env.llmInit
      let categories ← env.analyze
      let responseText ← env.invoke message
      let extracted : Slots :=
        match jsonSlice responseText.data with
        | some js =>
          match env.jsonParse ⟨js⟩ with
          | some s => s
          | none => fallbackExtract categories responseText.data
        | none =>
          match env.jsonParse responseText with
          | some s => s
          | none => fallbackExtract categories responseText.data
      .ok (manualRules message lqt extracted)

/-- `extract_entities_with_llm` (lines 397–543): the whole body runs
inside `try`, and any exception yields the empty slot set. -/
def extract_entities_with_llm (env : ExtractorEnv) (message : String) (lqt : Option String) :
    Slots :=
  match extractBody env message lqt with
  | .ok s => s
  | .error _ => {}

/-! ## Dialogue State Machine (`process_message`, lines 1432–1546) -/

/-- Per-message results of the three LLM classification calls
(`is_confirmation_message`, `is_affirmative_response`,
`is_negative_response`), each with its local keyword fallback already
applied. -/
structure Classifiers where
  isConfirmation : Bool
  isAffirmative : Bool
  isNegative : Bool

/-- The keyword lists of `classify_user_intent` (lines 178, 188). -/
def infoKeywords : List String :=
  ["what is", "how much", "price", "cost", "average", "popular", "common",
    "statistics", "tell me about", "info"]

/-- The quotation-request keywords of `classify_user_intent`. -/
def quoteKeywords : List String :=
  ["quote", "quotation", "get a quote", "want to", "need to", "service", "hire", "book"]

/-- `classify_user_intent` (lines 171–203).  `lqt` is the context's
`last_question_type` (or `none` without a context). -/
def classify_user_intent (isConf isNeg : Bool) (message : String) (lqt : Option String) :
    String :=
  let ml := lowerS message
  if infoKeywords.any (fun k => containsStr k ml) then
    if ["most popular", "common", "frequently"].any (fun t => containsStr t ml) then
      "popular_services_info"
    else if ["price", "cost", "how much", "average cost"].any (fun t => containsStr t ml) then
      "price_info"
    else "information_request"
  else if quoteKeywords.any (fun k => containsStr k ml) then "quotation_request"
  else if isConf then "confirmation"
  else if isNeg then "rejection"
  else if strFilled lqt then "direct_answer"
  else "generic_request"

/-- The per-session conversation context dictionary, as initialized at
lines 1452–1469.  `confirmed_quotations` and `clean_quotation` model
dictionary keys that `main.py` reads (`'confirmed_quotations' in
context`, `context.get('clean_quotation')`) but that no code in the
chatbot ever creates: they are `none` on initialization and stay
whatever they are. -/
structure ChatContext where
  category : Option String := none
  unit_type : Option String := none
  service_type : Option String := none
  hp_size : Option String := none
  brand : Option String := none
  fixture_type : Option String := none
  issue_type : Option String := none
  quantity : Option Nat := none
  chat_history : List (String × String) := []
  last_query : Option String := none
  last_question_type : Option String := none
  information_gathering_stage : Bool := true
  missing_info : List String := []
  last_quotation : Option String := none
  quotation_confirmed : Bool := false
  asked_for_another_quotation : Bool := false
  confirmed_quotations : Option (List String) := none
  clean_quotation : Option String := none
deriving DecidableEq

/-- The response dictionary returned by `process_message`. -/
structure ChatResponse where
  response : String
  display_quotation : Bool
  quotation : Option String
deriving DecidableEq

/-- The fixed token list of the quit check (line 1515/1525). -/
def quitList : List String :=
  ["quit", "exit", "no", "done", "finish", "end"]

/-- Reset acknowledgement (line 1445). -/
def resetMsg : String :=
  "Conversation has been reset. How can I help you today?"

/-- Confirmation acknowledgement with the would-you-like-another
follow-up (line 1500). -/
def confirmAckMsg : String :=
  "Thank you for confirming your quotation. Your service request has been recorded.\n\nWould you like to get a quotation for any other service? Or type 'quit' to finish and download your quotations."

/-- Closing message of the quit branch (line 1516). -/
def closingMsg : String :=
  "Thank you for using our service! Your quotations are ready for download. If you need anything else in the future, just start a new chat."

/-- Prompt issued after clearing the slots for another quotation
(line 1540). -/
def anotherMsg : String :=
  "Great! What type of service would you like a quotation for? (e.g., Aircon Servicing, Aircon Installation, Aircon Repair, or Plumber)"

/-- `process_message`, lines 1432–1546 — the reset command, session
creation, intent classification, the information-request branch, the
quotation-confirmation branch and the asking-for-another branch.  The
rest of the turn (the off-topic gate, entity extraction, the dynamic
response and the agent fallback, lines 1548–1766) is driven by LLM
calls and is the parameter `defaultFlow`; `infoResp` likewise stands
for the LLM-driven `handle_information_request` reply.  The returned
context is `none` when the session record was deleted (reset). -/
def process_message (cls : Classifiers) (infoResp : String)
    (defaultFlow : ChatContext → ChatResponse × ChatContext)
    (message : String) (ctx? : Option ChatContext) :
    ChatResponse × Option ChatContext :=
  if lowerS message = "reset" then
    ({ response := resetMsg, display_quotation := false, quotation := none }, none)
  else
    let context := ctx?.getD {}
    let user_intent :=
      classify_user_intent cls.isConfirmation cls.isNegative message context.last_question_type
    if user_intent ∈ ["information_request", "price_info", "popular_services_info"] then
      ({ response := infoResp, display_quotation := false, quotation := none },
        some { context with chat_history := context.chat_history ++ [(message, infoResp)] })
    else if strFilled context.last_quotation ∧ !context.quotation_confirmed ∧ cls.isConfirmation then
      ({ response := confirmAckMsg, display_quotation := true, quotation := context.last_quotation },
        some { context with
          quotation_confirmed := true,
          asked_for_another_quotation := true,
          chat_history := context.chat_history ++ [(message, confirmAckMsg)] })
    else if context.asked_for_another_quotation ∧ context.quotation_confirmed then
      if lowerS message ∈ quitList then
        ({ response := closingMsg, display_quotation := false, quotation := none },
          some { context with chat_history := context.chat_history ++ [(message, closingMsg)] })
      else if cls.isAffirmative ∨ lowerS message ∉ quitList then
        ({ response := anotherMsg, display_quotation := false, quotation := none },
          some { context with
            category := none,
            unit_type := none,
            service_type := none,
            hp_size := none,
            brand := none,
            fixture_type := none,
            issue_type := none,
            quantity := none,
            last_quotation := none,
            quotation_confirmed := false,
            asked_for_another_quotation := false,
            information_gathering_stage := true,
            chat_history := context.chat_history ++ [(message, anotherMsg)] })
      else
        let r := defaultFlow context
        (r.1, some r.2)
    else
      let r := defaultFlow context
      (r.1, some r.2)

/-! ## Supporting lemmas: substring search -/

theorem if_cond_true {α : Sort _} {c : Bool} (h : c = true) (a b : α) :
    (if c = true then a else b) = a := by
  rw [h]
  simp

theorem if_cond_false {α : Sort _} {c : Bool} (h : c = false) (a b : α) :
    (if c = true then a else b) = b := by
  rw [h]
  simp

theorem isSubAt_append_self (nd rest : List Char) : isSubAt nd (nd ++ rest) = true := by
  induction nd with
  | nil => rfl
  | cons a as ih => simp [isSubAt, ih]

theorem isSubAt_subset {nd hay : List Char} (h : isSubAt nd hay = true) :
    ∀ c ∈ nd, c ∈ hay := by
  induction nd generalizing hay with
  | nil => simp
  | cons a as ih =>
    cases hay with
    | nil => simp [isSubAt] at h
    | cons b bs =>
      simp only [isSubAt, Bool.and_eq_true, beq_iff_eq] at h
      intro c hc
      rcases List.mem_cons.mp hc with rfl | hc
      · exact h.1 ▸ List.mem_cons_self _ _
      · exact List.mem_cons_of_mem _ (ih h.2 c hc)

theorem containsSeq_subset {nd hay : List Char} (h : containsSeq nd hay = true) :
    ∀ c ∈ nd, c ∈ hay := by
  induction hay with
  | nil =>
    simp only [containsSeq, List.isEmpty_iff] at h
    simp [h]
  | cons b bs ih =>
    simp only [containsSeq, Bool.or_eq_true] at h
    rcases h with h | h
    · exact isSubAt_subset h
    · exact fun c hc => List.mem_cons_of_mem _ (ih h c hc)

theorem containsSeq_eq_false_of_missing {nd hay : List Char} {c : Char}
    (h1 : c ∈ nd) (h2 : c ∉ hay) : containsSeq nd hay = false := by
  by_contra h
  exact h2 (containsSeq_subset (Bool.of_not_eq_false h) c h1)

theorem containsSeq_append_self (nd rest : List Char) (h : nd ≠ []) :
    containsSeq nd (nd ++ rest) = true := by
  cases nd with
  | nil => exact absurd rfl h
  | cons a as =>
    have := isSubAt_append_self (a :: as) rest
    rw [List.cons_append] at this
    simp [containsSeq, this]

theorem findSeqIdx_eq_none_iff (nd l : List Char) :
    findSeqIdx nd l = none ↔ containsSeq nd l = false := by
  induction l with
  | nil =>
    by_cases hnd : nd = []
    · subst hnd; simp [findSeqIdx, containsSeq]
    · simp [findSeqIdx, containsSeq, hnd, List.isEmpty_iff]
  | cons b bs ih =>
    by_cases hs : isSubAt nd (b :: bs) = true
    · simp [findSeqIdx, containsSeq, hs]
    · have hs' : isSubAt nd (b :: bs) = false := by simpa using hs
      simp [findSeqIdx, containsSeq, hs', Option.map_eq_none', ih]

theorem findSeqIdx_append_self (nd rest : List Char) (h : nd ≠ []) :
    findSeqIdx nd (nd ++ rest) = some 0 := by
  cases nd with
  | nil => exact absurd rfl h
  | cons a as =>
    have := isSubAt_append_self (a :: as) rest
    rw [List.cons_append] at this
    simp [findSeqIdx, this]

theorem splitPart1_append_self (nd rest : List Char) (h : nd ≠ [])
    (hno : containsSeq nd rest = false) : splitPart1 nd (nd ++ rest) = some rest := by
  simp only [splitPart1, findSeqIdx_append_self nd rest h, Option.map_some']
  rw [Nat.zero_add, List.drop_left, (findSeqIdx_eq_none_iff nd rest).mpr hno]

/-! ## Supporting lemmas: line splitting -/

theorem splitNl_append {xs : List Char} (ys : List Char) (h : '\n' ∉ xs) :
    splitNl (xs ++ '\n' :: ys) = xs :: splitNl ys := by
  induction xs with
  | nil => simp [splitNl]
  | cons c cs ih =>
    have hc : (c == '\n') = false := by
      simp only [beq_eq_false_iff_ne, ne_eq]
      exact fun hcc => h (hcc ▸ List.mem_cons_self _ _)
    have hcs : '\n' ∉ cs := fun hm => h (List.mem_cons_of_mem _ hm)
    rw [List.cons_append]
    show (if (c == '\n') = true then _ else _) = _
    rw [hc, if_neg (by simp), ih hcs]

theorem splitNl_no_newline {xs : List Char} (h : '\n' ∉ xs) : splitNl xs = [xs] := by
  induction xs with
  | nil => rfl
  | cons c cs ih =>
    have hc : c ≠ '\n' := fun hcc => h (hcc ▸ List.mem_cons_self _ _)
    have hcs : '\n' ∉ cs := fun hm => h (List.mem_cons_of_mem _ hm)
    simp [splitNl, hc, ih hcs]

/-! ## Supporting lemmas: stripping -/

theorem dropWhile_eq_self_of_head {p : Char → Bool} {c : Char} {l : List Char}
    (h : p c = false) : (c :: l).dropWhile p = c :: l := by
  simp [List.dropWhile_cons, h]

theorem head_false_of_dropWhile_eq_self {p : Char → Bool} {c : Char} {l : List Char}
    (h : (c :: l).dropWhile p = c :: l) : p c = false := by
  by_contra hp
  simp only [Bool.not_eq_false] at hp
  simp only [List.dropWhile_cons, hp, if_true] at h
  have h1 := congrArg List.length h
  have hle := List.Sublist.length_le (List.dropWhile_sublist p (l := l))
  simp only [List.length_cons] at h1
  omega

theorem stripL_eq_self_parts {l : List Char} (h : stripL l = l) :
    l.dropWhile isPySpace = l ∧ l.reverse.dropWhile isPySpace = l.reverse := by
  have h1 : l.dropWhile isPySpace = l := by
    have hsub : List.Sublist (l.dropWhile isPySpace) l := List.dropWhile_sublist isPySpace
    have hlen : l.length ≤ (l.dropWhile isPySpace).length := by
      conv_lhs => rw [← h]
      calc (stripL l).length
          = ((l.dropWhile isPySpace).reverse.dropWhile isPySpace).length := by
            simp [stripL]
        _ ≤ (l.dropWhile isPySpace).reverse.length :=
            List.Sublist.length_le (List.dropWhile_sublist isPySpace)
        _ = (l.dropWhile isPySpace).length := by simp
    exact hsub.eq_of_length (Nat.le_antisymm hsub.length_le hlen)
  refine ⟨h1, ?_⟩
  have h2 : ((l.dropWhile isPySpace).reverse.dropWhile isPySpace).reverse = l := h
  rw [h1] at h2
  have := congrArg List.reverse h2
  simpa using this

theorem stripL_eq_self_of_forall {l : List Char} (h : ∀ c ∈ l, isPySpace c = false) :
    stripL l = l := by
  have h1 : l.dropWhile isPySpace = l := by
    cases l with
    | nil => simp
    | cons c cs => exact dropWhile_eq_self_of_head (h c (List.mem_cons_self _ _))
  have h2 : l.reverse.dropWhile isPySpace = l.reverse := by
    cases hr : l.reverse with
    | nil => simp
    | cons c cs =>
      have hc : c ∈ l := by
        have : c ∈ l.reverse := hr ▸ List.mem_cons_self _ _
        simpa using this
      exact dropWhile_eq_self_of_head (h c hc)
  simp [stripL, h1, h2]

theorem stripL_cons_space {c : Char} {l : List Char} (h : isPySpace c = true) :
    stripL (c :: l) = stripL l := by
  simp [stripL, List.dropWhile_cons, h]

/-- Stripping a line that begins with a non-space character and ends with a
stripped, non-empty tail leaves it unchanged. -/
theorem stripL_append_of_clean {a : Char} {A d : List Char}
    (ha : isPySpace a = false) (hd : stripL d = d) (hne : d ≠ []) :
    stripL ((a :: A) ++ d) = (a :: A) ++ d := by
  obtain ⟨-, h2⟩ := stripL_eq_self_parts hd
  have hdr : d.reverse ≠ [] := by simpa using hne
  obtain ⟨h, t, hht⟩ := List.exists_cons_of_ne_nil hdr
  have hph : isPySpace h = false := head_false_of_dropWhile_eq_self (hht ▸ h2)
  simp only [stripL, List.cons_append]
  rw [dropWhile_eq_self_of_head ha]
  have hrev : (a :: (A ++ d)).reverse = h :: (t ++ (A.reverse ++ [a])) := by
    rw [List.reverse_cons, List.reverse_append, hht]
    simp
  rw [hrev, dropWhile_eq_self_of_head hph, ← hrev]
  simp

/-! ## Supporting lemmas: decimal digits -/

theorem isDigitC_digitChar (d : Nat) : isDigitC (digitChar d) = true := by
  unfold digitChar
  split <;> decide

theorem isPySpace_digitChar (d : Nat) : isPySpace (digitChar d) = false := by
  unfold digitChar
  split <;> decide

theorem ne_newline_digitChar (d : Nat) : digitChar d ≠ '\n' := by
  unfold digitChar
  split <;> decide

theorem mem_natToChars_exists {c : Char} {n : Nat} (h : c ∈ natToChars n) :
    ∃ d, c = digitChar d := by
  unfold natToChars at h
  split at h
  · exact ⟨0, List.mem_singleton.mp h⟩
  · rw [List.mem_reverse] at h
    obtain ⟨d, -, rfl⟩ := List.mem_map.mp h
    exact ⟨d, rfl⟩

theorem mem_natToChars_isDigitC {c : Char} {n : Nat} (h : c ∈ natToChars n) :
    isDigitC c = true := by
  obtain ⟨d, rfl⟩ := mem_natToChars_exists h
  exact isDigitC_digitChar d

theorem natDigitsRevF_fuel : ∀ n f g, n ≤ f → n ≤ g → natDigitsRevF f n = natDigitsRevF g n := by
  intro n
  induction n using Nat.strong_induction_on with
  | _ n ih =>
    intro f g hf hg
    by_cases hn : n = 0
    · subst hn
      cases f <;> cases g <;> simp [natDigitsRevF]
    · cases f with
      | zero => omega
      | succ f' =>
        cases g with
        | zero => omega
        | succ g' =>
          simp only [natDigitsRevF, if_neg hn]
          have hlt : n / 10 < n := Nat.div_lt_self (Nat.pos_of_ne_zero hn) (by omega)
          rw [ih (n / 10) hlt f' g' (by omega) (by omega)]

theorem natDigitsRev_eq (n : Nat) :
    natDigitsRev n = if n = 0 then [] else n % 10 :: natDigitsRev (n / 10) := by
  by_cases hn : n = 0
  · subst hn
    simp [natDigitsRev, natDigitsRevF]
  · obtain ⟨m, rfl⟩ : ∃ m, n = m + 1 := ⟨n - 1, by omega⟩
    rw [if_neg hn]
    unfold natDigitsRev
    simp only [natDigitsRevF, if_neg hn]
    have hle : (m + 1) / 10 ≤ m := by omega
    rw [natDigitsRevF_fuel ((m + 1) / 10) m ((m + 1) / 10) hle (le_refl _)]

theorem natToChars_ne_nil (n : Nat) : natToChars n ≠ [] := by
  unfold natToChars
  split
  · simp
  · next h =>
    rw [natDigitsRev_eq]
    simp [h]

theorem charToDigit_digitChar {d : Nat} (h : d < 10) : charToDigit (digitChar d) = d := by
  interval_cases d <;> decide

theorem charsToNat_append_singleton (xs : List Char) (c : Char) :
    charsToNat (xs ++ [c]) = 10 * charsToNat xs + charToDigit c := by
  simp [charsToNat, List.foldl_append, Nat.mul_comm]

theorem charsToNat_natToChars (n : Nat) : charsToNat (natToChars n) = n := by
  unfold natToChars
  split
  · next h => simp [h, charsToNat, charToDigit]
  · next h =>
    suffices H : ∀ m : Nat, charsToNat (((natDigitsRev m).map digitChar).reverse) = m by
      exact H n
    intro m
    induction m using Nat.strong_induction_on with
    | _ m ih =>
      rw [natDigitsRev_eq]
      by_cases hm : m = 0
      · simp [hm, charsToNat]
      · simp only [hm, if_neg, not_false_iff, List.map_cons, List.reverse_cons]
        rw [charsToNat_append_singleton, ih (m / 10) (Nat.div_lt_self (Nat.pos_of_ne_zero hm) (by omega)),
          charToDigit_digitChar (Nat.mod_lt _ (by omega))]
        omega

theorem natToChars_all_digits (n : Nat) : (natToChars n).all isDigitC = true := by
  rw [List.all_eq_true]
  exact fun c hc => mem_natToChars_isDigitC hc

theorem parseNat_natToChars (n : Nat) : parseNat (natToChars n) = some n := by
  simp [parseNat, natToChars_ne_nil, natToChars_all_digits, charsToNat_natToChars]

theorem mem_pad2_exists {c : Char} {n : Nat} (h : c ∈ pad2 n) : ∃ d, c = digitChar d := by
  unfold pad2 at h
  split at h
  · rcases List.mem_cons.mp h with rfl | h2
    · exact ⟨0, rfl⟩
    · exact ⟨n, List.mem_singleton.mp h2⟩
  · exact mem_natToChars_exists h

theorem mem_fmt2_exists {c : Char} {q : ℚ} (h : c ∈ fmt2 q) :
    (∃ d, c = digitChar d) ∨ c = '.' := by
  unfold fmt2 at h
  rcases List.mem_append.mp h with h1 | h2
  · exact Or.inl (mem_natToChars_exists h1)
  · rcases List.mem_cons.mp h2 with rfl | h3
    · exact Or.inr rfl
    · exact Or.inl (mem_pad2_exists h3)

theorem not_newline_mem_fmt2 {q : ℚ} : '\n' ∉ fmt2 q := by
  intro h
  rcases mem_fmt2_exists h with ⟨d, hd⟩ | h1
  · exact ne_newline_digitChar d hd.symm
  · simp at h1

theorem not_newline_mem_natToChars {n : Nat} : '\n' ∉ natToChars n := by
  intro h
  obtain ⟨d, hd⟩ := mem_natToChars_exists h
  exact ne_newline_digitChar d hd.symm

theorem fmt2_no_space {c : Char} {q : ℚ} (h : c ∈ fmt2 q) : isPySpace c = false := by
  rcases mem_fmt2_exists h with ⟨d, rfl⟩ | rfl
  · exact isPySpace_digitChar d
  · decide

theorem natToChars_no_space {c : Char} {n : Nat} (h : c ∈ natToChars n) :
    isPySpace c = false := by
  obtain ⟨d, rfl⟩ := mem_natToChars_exists h
  exact isPySpace_digitChar d

theorem fmt2_ne_nil (q : ℚ) : fmt2 q ≠ [] := by
  unfold fmt2
  intro h
  exact natToChars_ne_nil _ (List.append_eq_nil.mp h).1

/-! ## Supporting lemmas: parsing back formatted numbers -/

theorem rhe_nonneg {q : ℚ} (h : 0 ≤ q) : 0 ≤ rhe q := by
  have hf : (0 : ℤ) ≤ ⌊q⌋ := Int.floor_nonneg.mpr h
  unfold rhe
  split
  · exact hf
  · split
    · omega
    · split <;> omega

theorem pad2_all_digits (n : Nat) : (pad2 n).all isDigitC = true := by
  rw [List.all_eq_true]
  exact fun c hc => by
    obtain ⟨d, rfl⟩ := mem_pad2_exists hc
    exact isDigitC_digitChar d

theorem pad2_ne_nil (n : Nat) : pad2 n ≠ [] := by
  unfold pad2
  split
  · simp
  · exact natToChars_ne_nil n

theorem natToChars_two_digits {n : Nat} (h10 : 10 ≤ n) (h100 : n < 100) :
    natToChars n = [digitChar (n / 10), digitChar (n % 10)] := by
  have h1 : n ≠ 0 := by omega
  have h2 : n / 10 ≠ 0 := by omega
  have h3 : n / 10 / 10 = 0 := by omega
  unfold natToChars
  rw [if_neg h1, natDigitsRev_eq, if_neg h1, natDigitsRev_eq, if_neg h2, h3, natDigitsRev_eq]
  have h4 : n / 10 % 10 = n / 10 := Nat.mod_eq_of_lt (by omega)
  simp [h4]

theorem pad2_charsToNat {n : Nat} (_ : n < 100) : charsToNat (pad2 n) = n := by
  unfold pad2
  split
  · next hlt =>
    show charsToNat ['0', digitChar n] = n
    simp [charsToNat, List.foldl, charToDigit_digitChar hlt]
    rfl
  · exact charsToNat_natToChars n

theorem pad2_length {n : Nat} (h : n < 100) : (pad2 n).length = 2 := by
  unfold pad2
  split
  · rfl
  · next hge =>
    rw [natToChars_two_digits (by omega) h]
    rfl

/-- Parsing the two-decimal formatting of a non-negative rational recovers
exactly its two-decimal rounding. -/
theorem parseFloatQ_fmt2 {v : ℚ} (h : 0 ≤ v) : parseFloatQ (fmt2 v) = some (round2 v) := by
  have hn : 0 ≤ rhe (v * 100) := rhe_nonneg (by positivity)
  have hmod : (rhe (v * 100)).toNat % 100 < 100 := Nat.mod_lt _ (by omega)
  have hA : ∀ c ∈ natToChars ((rhe (v * 100)).toNat / 100), (decide (c ≠ '.')) = true := by
    intro c hc
    obtain ⟨d, rfl⟩ := mem_natToChars_exists hc
    simp only [decide_eq_true_eq]
    unfold digitChar
    split <;> decide
  unfold parseFloatQ fmt2
  rw [List.takeWhile_append_of_pos hA, List.dropWhile_append_of_pos hA]
  have htw : (('.' :: pad2 ((rhe (v * 100)).toNat % 100)).takeWhile (· ≠ '.')) = [] := by
    simp [List.takeWhile_cons]
  have hdw : (('.' :: pad2 ((rhe (v * 100)).toNat % 100)).dropWhile (· ≠ '.')) =
      '.' :: pad2 ((rhe (v * 100)).toNat % 100) := by
    simp [List.dropWhile_cons]
  rw [htw, hdw, List.append_nil]
  have hcond : (natToChars ((rhe (v * 100)).toNat / 100) ++ pad2 ((rhe (v * 100)).toNat % 100)) ≠ [] ∧
      (natToChars ((rhe (v * 100)).toNat / 100)).all isDigitC = true ∧
      (pad2 ((rhe (v * 100)).toNat % 100)).all isDigitC = true :=
    ⟨by simp [natToChars_ne_nil], natToChars_all_digits _, pad2_all_digits _⟩
  dsimp only
  rw [if_pos hcond]
  congr 1
  rw [charsToNat_natToChars, pad2_charsToNat hmod, pad2_length hmod]
  have hcast : (((rhe (v * 100)).toNat : ℚ)) = ((rhe (v * 100) : ℤ) : ℚ) := by
    exact_mod_cast congrArg (Int.cast : ℤ → ℚ) (Int.toNat_of_nonneg hn)
  set m := (rhe (v * 100)).toNat with hm
  have key : (100 : ℚ) * ((m / 100 : Nat) : ℚ) + ((m % 100 : Nat) : ℚ) = (m : ℚ) := by
    exact_mod_cast congrArg (Nat.cast : Nat → ℚ) (Nat.div_add_mod m 100)
  unfold round2
  rw [← hcast]
  push_cast at key
  rw [← key]
  ring

/-! ## Supporting lemmas: the lines of a generated quotation -/

theorem splitNl_ne_nil (l : List Char) : splitNl l ≠ [] := by
  cases l with
  | nil => simp [splitNl]
  | cons c cs =>
    unfold splitNl
    split
    · simp
    · split <;> simp

theorem splitNl_newline_cons (l : List Char) : splitNl ('\n' :: l) = [] :: splitNl l := by
  simp [splitNl]

/-- Splitting after a newline-free prefix merges the prefix into the first
resulting piece. -/
theorem splitNl_append_no_nl {xs : List Char} (ys : List Char) (h : '\n' ∉ xs) :
    splitNl (xs ++ ys) = (xs ++ (splitNl ys).headD []) :: (splitNl ys).tail := by
  induction xs with
  | nil =>
    simp only [List.nil_append]
    obtain ⟨a, as, ha⟩ := List.exists_cons_of_ne_nil (splitNl_ne_nil ys)
    rw [ha]
    rfl
  | cons c cs ih =>
    have hc : (c == '\n') = false := by
      simp only [beq_eq_false_iff_ne, ne_eq]
      exact fun hcc => h (hcc ▸ List.mem_cons_self _ _)
    have hcs : '\n' ∉ cs := fun hm => h (List.mem_cons_of_mem _ hm)
    rw [List.cons_append]
    conv_lhs => rw [splitNl]
    rw [hc]
    simp only [Bool.false_eq_true, if_false]
    rw [ih hcs]
    simp

theorem splitNl_nlJoin {ls : List (List Char)} (h : ∀ l ∈ ls, '\n' ∉ l) (hne : ls ≠ []) :
    splitNl (nlJoin ls) = ls := by
  induction ls with
  | nil => exact absurd rfl hne
  | cons l rest ih =>
    cases rest with
    | nil =>
      show splitNl (nlJoin [l]) = [l]
      unfold nlJoin
      exact splitNl_no_newline (h l (List.mem_cons_self _ _))
    | cons l2 rest2 =>
      show splitNl (l ++ '\n' :: nlJoin (l2 :: rest2)) = l :: l2 :: rest2
      rw [splitNl_append _ (h l (List.mem_cons_self _ _))]
      rw [ih (fun x hx => h x (List.mem_cons_of_mem _ hx)) (by simp)]

/-- The line decomposition of a generated quotation, for a description
without embedded newlines. -/
theorem splitNl_generate (s : MatchResult) (q : Nat) (hd : '\n' ∉ s.description.data) :
    splitNl (generate_quotation s q).data =
      ["SERVICE QUOTATION".data,
        "------------------".data,
        "Service Description: ".data ++ s.description.data,
        "Quantity: ".data ++ natToChars q,
        "Unit Price (RM): ".data ++ fmt2 s.unit_price,
        "Subtotal: ".data ++ fmt2 (s.unit_price * (q : ℚ)),
        "Tax (8%): ".data ++ fmt2 (s.unit_price * (q : ℚ) * 0.08),
        "Total: ".data ++ fmt2 (s.unit_price * (q : ℚ) + s.unit_price * (q : ℚ) * 0.08),
        [],
        "This quotation is based on our database of similar services.".data,
        "Additional charges may apply depending on specific requirements.".data,
        []] := by
  have c1 : "SERVICE QUOTATION\n------------------\nService Description: ".data =
      "SERVICE QUOTATION".data ++ '\n' ::
        ("------------------".data ++ '\n' :: "Service Description: ".data) := by decide
  have c2 : "\nQuantity: ".data = '\n' :: "Quantity: ".data := by decide
  have c3 : "\nUnit Price (RM): ".data = '\n' :: "Unit Price (RM): ".data := by decide
  have c4 : "\nSubtotal: ".data = '\n' :: "Subtotal: ".data := by decide
  have c5 : "\nTax (8%): ".data = '\n' :: "Tax (8%): ".data := by decide
  have c6 : "\nTotal: ".data = '\n' :: "Total: ".data := by decide
  have c7 : "\n\nThis quotation is based on our database of similar services.\nAdditional charges may apply depending on specific requirements.\n".data =
      '\n' :: '\n' ::
        ("This quotation is based on our database of similar services.".data ++ '\n' ::
          ("Additional charges may apply depending on specific requirements.".data ++
            '\n' :: ([] : List Char))) := by decide
  have hdata : (generate_quotation s q).data =
      nlJoin ["SERVICE QUOTATION".data,
        "------------------".data,
        "Service Description: ".data ++ s.description.data,
        "Quantity: ".data ++ natToChars q,
        "Unit Price (RM): ".data ++ fmt2 s.unit_price,
        "Subtotal: ".data ++ fmt2 (s.unit_price * (q : ℚ)),
        "Tax (8%): ".data ++ fmt2 (s.unit_price * (q : ℚ) * 0.08),
        "Total: ".data ++ fmt2 (s.unit_price * (q : ℚ) + s.unit_price * (q : ℚ) * 0.08),
        [],
        "This quotation is based on our database of similar services.".data,
        "Additional charges may apply depending on specific requirements.".data,
        []] := by
    unfold generate_quotation
    simp only [nlJoin, String.data_append, fmt2S, c1, c2, c3, c4, c5, c6, c7]
    simp [List.append_assoc]
  rw [hdata]
  apply splitNl_nlJoin _ (by simp)
  intro l hl
  simp only [List.mem_cons, List.not_mem_nil, or_false] at hl
  rcases hl with rfl | rfl | rfl | rfl | rfl | rfl | rfl | rfl | rfl | rfl | rfl | rfl
  · decide
  · decide
  · intro hm
    rcases List.mem_append.mp hm with h1 | h1
    · revert h1; decide
    · exact hd h1
  · intro hm
    rcases List.mem_append.mp hm with h1 | h1
    · revert h1; decide
    · exact not_newline_mem_natToChars h1
  · intro hm
    rcases List.mem_append.mp hm with h1 | h1
    · revert h1; decide
    · exact not_newline_mem_fmt2 h1
  · intro hm
    rcases List.mem_append.mp hm with h1 | h1
    · revert h1; decide
    · exact not_newline_mem_fmt2 h1
  · intro hm
    rcases List.mem_append.mp hm with h1 | h1
    · revert h1; decide
    · exact not_newline_mem_fmt2 h1
  · intro hm
    rcases List.mem_append.mp hm with h1 | h1
    · revert h1; decide
    · exact not_newline_mem_fmt2 h1
  · simp
  · decide
  · decide
  · simp

/-! ## Supporting lemmas: running the parser over a generated quotation -/

theorem not_mem_fmt2_of {c : Char} (h1 : isDigitC c = false) (h2 : c ≠ '.') {v : ℚ} :
    c ∉ fmt2 v := by
  intro hm
  rcases mem_fmt2_exists hm with ⟨d, rfl⟩ | rfl
  · rw [isDigitC_digitChar d] at h1
    cases h1
  · exact h2 rfl

theorem not_mem_natToChars_of {c : Char} (h1 : isDigitC c = false) {n : Nat} :
    c ∉ natToChars n := by
  intro hm
  rw [mem_natToChars_isDigitC hm] at h1
  cases h1

theorem stripL_fmt2 (v : ℚ) : stripL (fmt2 v) = fmt2 v :=
  stripL_eq_self_of_forall fun _ hc => fmt2_no_space hc

theorem stripL_natToChars (n : Nat) : stripL (natToChars n) = natToChars n :=
  stripL_eq_self_of_forall fun _ hc => natToChars_no_space hc

theorem isSubAt_cons_ne {a b : Char} {as bs : List Char} (h : a ≠ b) :
    isSubAt (a :: as) (b :: bs) = false := by
  simp [isSubAt, h]

/-- Processing the `Service Description:` line of a generated quotation. -/
theorem parseStep_desc (st : PState) (d : List Char)
    (hd2 : stripL d = d) (hd3 : d ≠ [])
    (hd4 : containsSeq "Service Description:".data d = false) :
    parseStep st ("Service Description: ".data ++ d) =
      { st with started := true, descLines := st.descLines ++ [d] } := by
  have hline : "Service Description: ".data ++ d =
      "Service Description:".data ++ (' ' :: d) := by
    rw [show "Service Description: ".data = "Service Description:".data ++ [' '] from by decide]
    simp
  have hstrip : stripL ("Service Description: ".data ++ d) = "Service Description: ".data ++ d := by
    rw [show "Service Description: ".data = 'S' :: "ervice Description: ".data from by decide,
      List.cons_append]
    have := @stripL_append_of_clean 'S' ("ervice Description: ".data) d (by decide) hd2 hd3
    rw [List.cons_append] at this
    exact this
  have hcont : containsSeq "Service Description:".data ("Service Description: ".data ++ d) = true := by
    rw [hline]
    exact containsSeq_append_self _ _ (by decide)
  have hnod : containsSeq "Service Description:".data (' ' :: d) = false := by
    show (isSubAt "Service Description:".data (' ' :: d) || containsSeq "Service Description:".data d) = false
    rw [hd4, show ("Service Description:".data : List Char) =
      'S' :: "ervice Description:".data from by decide, isSubAt_cons_ne (by decide)]
    rfl
  have hsplit : splitPart1 "Service Description:".data ("Service Description: ".data ++ d) =
      some (' ' :: d) := by
    rw [hline]
    exact splitPart1_append_self _ _ (by decide) hnod
  unfold parseStep
  rw [hstrip, if_cond_true hcont, hsplit]
  rw [Option.getD_some, stripL_cons_space (show isPySpace ' ' = true from by decide), hd2]

/-- A line that matches no label and is already stripped leaves the parser
state unchanged (outside a description continuation). -/
theorem parseStep_inert (st : PState) (l : List Char) (hstarted : st.started = false)
    (h0 : stripL l = l)
    (h1 : containsSeq "Service Description:".data l = false)
    (h3 : containsSeq "Quantity:".data l = false)
    (h4 : containsSeq "Unit Price (RM):".data l = false)
    (h5 : containsSeq "Subtotal:".data l = false)
    (h6 : containsSeq "Tax (8%):".data l = false)
    (h7 : containsSeq "Total:".data l = false) :
    parseStep st l = st := by
  unfold parseStep
  rw [h0, if_cond_false h1,
    show (st.started && !(contKeys.any fun k => containsSeq k.data l)) = false from by
      rw [hstarted]; rfl,
    if_cond_false rfl, if_cond_false h3, if_cond_false h4, if_cond_false h5,
    if_cond_false h6, if_cond_false h7]

/-- Processing the `Quantity:` line of a generated quotation. -/
theorem parseStep_quantity (st : PState) (q : Nat) :
    parseStep st ("Quantity: ".data ++ natToChars q) =
      { st with started := false, quantity := q } := by
  have hline : "Quantity: ".data ++ natToChars q = "Quantity:".data ++ (' ' :: natToChars q) := by
    rw [show "Quantity: ".data = "Quantity:".data ++ [' '] from by decide]
    simp
  have hstrip : stripL ("Quantity: ".data ++ natToChars q) = "Quantity: ".data ++ natToChars q := by
    rw [show "Quantity: ".data = 'Q' :: "uantity: ".data from by decide, List.cons_append]
    have := @stripL_append_of_clean 'Q' "uantity: ".data (natToChars q) (by decide)
      (stripL_natToChars q) (natToChars_ne_nil q)
    rw [List.cons_append] at this
    exact this
  have hno_desc : containsSeq "Service Description:".data ("Quantity: ".data ++ natToChars q) = false := by
    refine containsSeq_eq_false_of_missing (show 'v' ∈ "Service Description:".data from by decide) ?_
    intro hm
    rcases List.mem_append.mp hm with h1 | h1
    · revert h1; decide
    · exact not_mem_natToChars_of (by decide) h1
  have hown : containsSeq "Quantity:".data ("Quantity: ".data ++ natToChars q) = true := by
    rw [hline]
    exact containsSeq_append_self _ _ (by decide)
  have hcont : (st.started && !(contKeys.any fun k =>
      containsSeq k.data ("Quantity: ".data ++ natToChars q))) = false := by
    have : (contKeys.any fun k => containsSeq k.data ("Quantity: ".data ++ natToChars q)) = true := by
      simp only [contKeys, List.any_cons, hown, Bool.true_or]
    rw [this]
    simp
  have hnotail : containsSeq "Quantity:".data (' ' :: natToChars q) = false := by
    show (isSubAt "Quantity:".data (' ' :: natToChars q) ||
      containsSeq "Quantity:".data (natToChars q)) = false
    rw [containsSeq_eq_false_of_missing (show 'Q' ∈ "Quantity:".data from by decide)
        (not_mem_natToChars_of (by decide)),
      show ("Quantity:".data : List Char) = 'Q' :: "uantity:".data from by decide,
      isSubAt_cons_ne (by decide)]
    rfl
  have hsplit : splitPart1 "Quantity:".data ("Quantity: ".data ++ natToChars q) =
      some (' ' :: natToChars q) := by
    rw [hline]
    exact splitPart1_append_self _ _ (by decide) hnotail
  unfold parseStep
  rw [hstrip, if_cond_false hno_desc, if_cond_false hcont, if_cond_true hown, hsplit,
    Option.getD_some, stripL_cons_space (show isPySpace ' ' = true from by decide),
    stripL_natToChars, parseNat_natToChars]

/-- Processing the `Unit Price (RM):` line of a generated quotation. -/
theorem parseStep_unit_price (st : PState) {v : ℚ} (hv : 0 ≤ v) :
    parseStep st ("Unit Price (RM): ".data ++ fmt2 v) =
      { st with unit_price := round2 v } := by
  have hline : "Unit Price (RM): ".data ++ fmt2 v = "Unit Price (RM):".data ++ (' ' :: fmt2 v) := by
    rw [show "Unit Price (RM): ".data = "Unit Price (RM):".data ++ [' '] from by decide]
    simp
  have hstrip : stripL ("Unit Price (RM): ".data ++ fmt2 v) = "Unit Price (RM): ".data ++ fmt2 v := by
    rw [show "Unit Price (RM): ".data = 'U' :: "nit Price (RM): ".data from by decide,
      List.cons_append]
    have := @stripL_append_of_clean 'U' "nit Price (RM): ".data (fmt2 v) (by decide)
      (stripL_fmt2 v) (fmt2_ne_nil v)
    rw [List.cons_append] at this
    exact this
  have hno_desc : containsSeq "Service Description:".data ("Unit Price (RM): ".data ++ fmt2 v) = false := by
    refine containsSeq_eq_false_of_missing (show 'v' ∈ "Service Description:".data from by decide) ?_
    intro hm
    rcases List.mem_append.mp hm with h1 | h1
    · revert h1; decide
    · exact not_mem_fmt2_of (by decide) (by decide) h1
  have hno_q : containsSeq "Quantity:".data ("Unit Price (RM): ".data ++ fmt2 v) = false := by
    refine containsSeq_eq_false_of_missing (show 'Q' ∈ "Quantity:".data from by decide) ?_
    intro hm
    rcases List.mem_append.mp hm with h1 | h1
    · revert h1; decide
    · exact not_mem_fmt2_of (by decide) (by decide) h1
  have hown : containsSeq "Unit Price (RM):".data ("Unit Price (RM): ".data ++ fmt2 v) = true := by
    rw [hline]
    exact containsSeq_append_self _ _ (by decide)
  have hcont : (st.started && !(contKeys.any fun k =>
      containsSeq k.data ("Unit Price (RM): ".data ++ fmt2 v))) = false := by
    have : (contKeys.any fun k => containsSeq k.data ("Unit Price (RM): ".data ++ fmt2 v)) = true := by
      simp only [contKeys, List.any_cons, hown, Bool.true_or, Bool.or_true]
    rw [this]
    simp
  have hnotail : containsSeq "Unit Price (RM):".data (' ' :: fmt2 v) = false := by
    show (isSubAt "Unit Price (RM):".data (' ' :: fmt2 v) ||
      containsSeq "Unit Price (RM):".data (fmt2 v)) = false
    rw [containsSeq_eq_false_of_missing (show 'U' ∈ "Unit Price (RM):".data from by decide)
        (not_mem_fmt2_of (by decide) (by decide)),
      show ("Unit Price (RM):".data : List Char) = 'U' :: "nit Price (RM):".data from by decide,
      isSubAt_cons_ne (by decide)]
    rfl
  have hsplit : splitPart1 "Unit Price (RM):".data ("Unit Price (RM): ".data ++ fmt2 v) =
      some (' ' :: fmt2 v) := by
    rw [hline]
    exact splitPart1_append_self _ _ (by decide) hnotail
  unfold parseStep
  rw [hstrip, if_cond_false hno_desc, if_cond_false hcont, if_cond_false hno_q,
    if_cond_true hown, hsplit, Option.getD_some,
    stripL_cons_space (show isPySpace ' ' = true from by decide), stripL_fmt2,
    parseFloatQ_fmt2 hv]

/-- Processing the `Subtotal:` line of a generated quotation. -/
theorem parseStep_subtotal (st : PState) {v : ℚ} (hv : 0 ≤ v) :
    parseStep st ("Subtotal: ".data ++ fmt2 v) =
      { st with subtotal := round2 v } := by
  have hline : "Subtotal: ".data ++ fmt2 v = "Subtotal:".data ++ (' ' :: fmt2 v) := by
    rw [show "Subtotal: ".data = "Subtotal:".data ++ [' '] from by decide]
    simp
  have hstrip : stripL ("Subtotal: ".data ++ fmt2 v) = "Subtotal: ".data ++ fmt2 v := by
    rw [show "Subtotal: ".data = 'S' :: "ubtotal: ".data from by decide, List.cons_append]
    have := @stripL_append_of_clean 'S' "ubtotal: ".data (fmt2 v) (by decide)
      (stripL_fmt2 v) (fmt2_ne_nil v)
    rw [List.cons_append] at this
    exact this
  have hno_desc : containsSeq "Service Description:".data ("Subtotal: ".data ++ fmt2 v) = false := by
    refine containsSeq_eq_false_of_missing (show 'v' ∈ "Service Description:".data from by decide) ?_
    intro hm
    rcases List.mem_append.mp hm with h1 | h1
    · revert h1; decide
    · exact not_mem_fmt2_of (by decide) (by decide) h1
  have hno_q : containsSeq "Quantity:".data ("Subtotal: ".data ++ fmt2 v) = false := by
    refine containsSeq_eq_false_of_missing (show 'Q' ∈ "Quantity:".data from by decide) ?_
    intro hm
    rcases List.mem_append.mp hm with h1 | h1
    · revert h1; decide
    · exact not_mem_fmt2_of (by decide) (by decide) h1
  have hno_u : containsSeq "Unit Price (RM):".data ("Subtotal: ".data ++ fmt2 v) = false := by
    refine containsSeq_eq_false_of_missing (show '(' ∈ "Unit Price (RM):".data from by decide) ?_
    intro hm
    rcases List.mem_append.mp hm with h1 | h1
    · revert h1; decide
    · exact not_mem_fmt2_of (by decide) (by decide) h1
  have hown : containsSeq "Subtotal:".data ("Subtotal: ".data ++ fmt2 v) = true := by
    rw [hline]
    exact containsSeq_append_self _ _ (by decide)
  have hcont : (st.started && !(contKeys.any fun k =>
      containsSeq k.data ("Subtotal: ".data ++ fmt2 v))) = false := by
    have : (contKeys.any fun k => containsSeq k.data ("Subtotal: ".data ++ fmt2 v)) = true := by
      simp only [contKeys, List.any_cons, hown, Bool.true_or, Bool.or_true]
    rw [this]
    simp
  have hnotail : containsSeq "Subtotal:".data (' ' :: fmt2 v) = false := by
    show (isSubAt "Subtotal:".data (' ' :: fmt2 v) ||
      containsSeq "Subtotal:".data (fmt2 v)) = false
    rw [containsSeq_eq_false_of_missing (show 'S' ∈ "Subtotal:".data from by decide)
        (not_mem_fmt2_of (by decide) (by decide)),
      show ("Subtotal:".data : List Char) = 'S' :: "ubtotal:".data from by decide,
      isSubAt_cons_ne (by decide)]
    rfl
  have hsplit : splitPart1 "Subtotal:".data ("Subtotal: ".data ++ fmt2 v) =
      some (' ' :: fmt2 v) := by
    rw [hline]
    exact splitPart1_append_self _ _ (by decide) hnotail
  unfold parseStep
  rw [hstrip, if_cond_false hno_desc, if_cond_false hcont, if_cond_false hno_q,
    if_cond_false hno_u, if_cond_true hown, hsplit, Option.getD_some,
    stripL_cons_space (show isPySpace ' ' = true from by decide), stripL_fmt2,
    parseFloatQ_fmt2 hv]

/-- Processing the `Tax (8%):` line of a generated quotation. -/
theorem parseStep_tax (st : PState) {v : ℚ} (hv : 0 ≤ v) :
    parseStep st ("Tax (8%): ".data ++ fmt2 v) =
      { st with tax := round2 v } := by
  have hline : "Tax (8%): ".data ++ fmt2 v = "Tax (8%):".data ++ (' ' :: fmt2 v) := by
    rw [show "Tax (8%): ".data = "Tax (8%):".data ++ [' '] from by decide]
    simp
  have hstrip : stripL ("Tax (8%): ".data ++ fmt2 v) = "Tax (8%): ".data ++ fmt2 v := by
    rw [show "Tax (8%): ".data = 'T' :: "ax (8%): ".data from by decide, List.cons_append]
    have := @stripL_append_of_clean 'T' "ax (8%): ".data (fmt2 v) (by decide)
      (stripL_fmt2 v) (fmt2_ne_nil v)
    rw [List.cons_append] at this
    exact this
  have hno_desc : containsSeq "Service Description:".data ("Tax (8%): ".data ++ fmt2 v) = false := by
    refine containsSeq_eq_false_of_missing (show 'v' ∈ "Service Description:".data from by decide) ?_
    intro hm
    rcases List.mem_append.mp hm with h1 | h1
    · revert h1; decide
    · exact not_mem_fmt2_of (by decide) (by decide) h1
  have hno_q : containsSeq "Quantity:".data ("Tax (8%): ".data ++ fmt2 v) = false := by
    refine containsSeq_eq_false_of_missing (show 'Q' ∈ "Quantity:".data from by decide) ?_
    intro hm
    rcases List.mem_append.mp hm with h1 | h1
    · revert h1; decide
    · exact not_mem_fmt2_of (by decide) (by decide) h1
  have hno_u : containsSeq "Unit Price (RM):".data ("Tax (8%): ".data ++ fmt2 v) = false := by
    refine containsSeq_eq_false_of_missing (show 'U' ∈ "Unit Price (RM):".data from by decide) ?_
    intro hm
    rcases List.mem_append.mp hm with h1 | h1
    · revert h1; decide
    · exact not_mem_fmt2_of (by decide) (by decide) h1
  have hno_s : containsSeq "Subtotal:".data ("Tax (8%): ".data ++ fmt2 v) = false := by
    refine containsSeq_eq_false_of_missing (show 'S' ∈ "Subtotal:".data from by decide) ?_
    intro hm
    rcases List.mem_append.mp hm with h1 | h1
    · revert h1; decide
    · exact not_mem_fmt2_of (by decide) (by decide) h1
  have hown : containsSeq "Tax (8%):".data ("Tax (8%): ".data ++ fmt2 v) = true := by
    rw [hline]
    exact containsSeq_append_self _ _ (by decide)
  have hcont : (st.started && !(contKeys.any fun k =>
      containsSeq k.data ("Tax (8%): ".data ++ fmt2 v))) = false := by
    have : (contKeys.any fun k => containsSeq k.data ("Tax (8%): ".data ++ fmt2 v)) = true := by
      simp only [contKeys, List.any_cons, hown, Bool.true_or, Bool.or_true]
    rw [this]
    simp
  have hnotail : containsSeq "Tax (8%):".data (' ' :: fmt2 v) = false := by
    show (isSubAt "Tax (8%):".data (' ' :: fmt2 v) ||
      containsSeq "Tax (8%):".data (fmt2 v)) = false
    rw [containsSeq_eq_false_of_missing (show 'T' ∈ "Tax (8%):".data from by decide)
        (not_mem_fmt2_of (by decide) (by decide)),
      show ("Tax (8%):".data : List Char) = 'T' :: "ax (8%):".data from by decide,
      isSubAt_cons_ne (by decide)]
    rfl
  have hsplit : splitPart1 "Tax (8%):".data ("Tax (8%): ".data ++ fmt2 v) =
      some (' ' :: fmt2 v) := by
    rw [hline]
    exact splitPart1_append_self _ _ (by decide) hnotail
  unfold parseStep
  rw [hstrip, if_cond_false hno_desc, if_cond_false hcont, if_cond_false hno_q,
    if_cond_false hno_u, if_cond_false hno_s, if_cond_true hown, hsplit, Option.getD_some,
    stripL_cons_space (show isPySpace ' ' = true from by decide), stripL_fmt2,
    parseFloatQ_fmt2 hv]

/-- Processing the `Total:` line of a generated quotation. -/
theorem parseStep_total (st : PState) {v : ℚ} (hv : 0 ≤ v) :
    parseStep st ("Total: ".data ++ fmt2 v) =
      { st with total := round2 v } := by
  have hline : "Total: ".data ++ fmt2 v = "Total:".data ++ (' ' :: fmt2 v) := by
    rw [show "Total: ".data = "Total:".data ++ [' '] from by decide]
    simp
  have hstrip : stripL ("Total: ".data ++ fmt2 v) = "Total: ".data ++ fmt2 v := by
    rw [show "Total: ".data = 'T' :: "otal: ".data from by decide, List.cons_append]
    have := @stripL_append_of_clean 'T' "otal: ".data (fmt2 v) (by decide)
      (stripL_fmt2 v) (fmt2_ne_nil v)
    rw [List.cons_append] at this
    exact this
  have hno_desc : containsSeq "Service Description:".data ("Total: ".data ++ fmt2 v) = false := by
    refine containsSeq_eq_false_of_missing (show 'v' ∈ "Service Description:".data from by decide) ?_
    intro hm
    rcases List.mem_append.mp hm with h1 | h1
    · revert h1; decide
    · exact not_mem_fmt2_of (by decide) (by decide) h1
  have hno_q : containsSeq "Quantity:".data ("Total: ".data ++ fmt2 v) = false := by
    refine containsSeq_eq_false_of_missing (show 'Q' ∈ "Quantity:".data from by decide) ?_
    intro hm
    rcases List.mem_append.mp hm with h1 | h1
    · revert h1; decide
    · exact not_mem_fmt2_of (by decide) (by decide) h1
  have hno_u : containsSeq "Unit Price (RM):".data ("Total: ".data ++ fmt2 v) = false := by
    refine containsSeq_eq_false_of_missing (show 'U' ∈ "Unit Price (RM):".data from by decide) ?_
    intro hm
    rcases List.mem_append.mp hm with h1 | h1
    · revert h1; decide
    · exact not_mem_fmt2_of (by decide) (by decide) h1
  have hno_s : containsSeq "Subtotal:".data ("Total: ".data ++ fmt2 v) = false := by
    refine containsSeq_eq_false_of_missing (show 'S' ∈ "Subtotal:".data from by decide) ?_
    intro hm
    rcases List.mem_append.mp hm with h1 | h1
    · revert h1; decide
    · exact not_mem_fmt2_of (by decide) (by decide) h1
  have hno_t : containsSeq "Tax (8%):".data ("Total: ".data ++ fmt2 v) = false := by
    refine containsSeq_eq_false_of_missing (show 'x' ∈ "Tax (8%):".data from by decide) ?_
    intro hm
    rcases List.mem_append.mp hm with h1 | h1
    · revert h1; decide
    · exact not_mem_fmt2_of (by decide) (by decide) h1
  have hown : containsSeq "Total:".data ("Total: ".data ++ fmt2 v) = true := by
    rw [hline]
    exact containsSeq_append_self _ _ (by decide)
  have hcont : (st.started && !(contKeys.any fun k =>
      containsSeq k.data ("Total: ".data ++ fmt2 v))) = false := by
    have : (contKeys.any fun k => containsSeq k.data ("Total: ".data ++ fmt2 v)) = true := by
      simp only [contKeys, List.any_cons, hown, Bool.true_or, Bool.or_true]
    rw [this]
    simp
  have hnotail : containsSeq "Total:".data (' ' :: fmt2 v) = false := by
    show (isSubAt "Total:".data (' ' :: fmt2 v) ||
      containsSeq "Total:".data (fmt2 v)) = false
    rw [containsSeq_eq_false_of_missing (show 'T' ∈ "Total:".data from by decide)
        (not_mem_fmt2_of (by decide) (by decide)),
      show ("Total:".data : List Char) = 'T' :: "otal:".data from by decide,
      isSubAt_cons_ne (by decide)]
    rfl
  have hsplit : splitPart1 "Total:".data ("Total: ".data ++ fmt2 v) =
      some (' ' :: fmt2 v) := by
    rw [hline]
    exact splitPart1_append_self _ _ (by decide) hnotail
  unfold parseStep
  rw [hstrip, if_cond_false hno_desc, if_cond_false hcont, if_cond_false hno_q,
    if_cond_false hno_u, if_cond_false hno_s, if_cond_false hno_t, if_cond_true hown,
    hsplit, Option.getD_some,
    stripL_cons_space (show isPySpace ' ' = true from by decide), stripL_fmt2,
    parseFloatQ_fmt2 hv]

/-- Parsing a generated quotation recovers the description and quantity
exactly and each money field rounded to two decimals, provided the
description is a single clean line and none of the three rounded
amounts is zero (so the parser's reconstruction pass stays idle). -/
theorem parse_generate (s : MatchResult) (q : Nat)
    (hd1 : '\n' ∉ s.description.data)
    (hd2 : stripL s.description.data = s.description.data)
    (hd3 : s.description ≠ "")
    (hd4 : containsSeq "Service Description:".data s.description.data = false)
    (hup : 0 ≤ s.unit_price)
    (hsub : round2 (s.unit_price * (q : ℚ)) ≠ 0)
    (htax : round2 (s.unit_price * (q : ℚ) * 0.08) ≠ 0)
    (htot : round2 (s.unit_price * (q : ℚ) + s.unit_price * (q : ℚ) * 0.08) ≠ 0) :
    parse_quotation_text (generate_quotation s q) =
      ⟨s.description, q, round2 s.unit_price, round2 (s.unit_price * (q : ℚ)),
        round2 (s.unit_price * (q : ℚ) * 0.08),
        round2 (s.unit_price * (q : ℚ) + s.unit_price * (q : ℚ) * 0.08)⟩ := by
  have hd3' : s.description.data ≠ [] := by
    intro h
    exact hd3 (String.ext h)
  have hq0 : (0 : ℚ) ≤ (q : ℚ) := Nat.cast_nonneg q
  have hupq : (0 : ℚ) ≤ s.unit_price * (q : ℚ) := mul_nonneg hup hq0
  have htax0 : (0 : ℚ) ≤ s.unit_price * (q : ℚ) * 0.08 := mul_nonneg hupq (by norm_num)
  have htot0 : (0 : ℚ) ≤ s.unit_price * (q : ℚ) + s.unit_price * (q : ℚ) * 0.08 :=
    add_nonneg hupq htax0
  unfold parse_quotation_text
  rw [splitNl_generate s q hd1]
  simp only [List.foldl_cons, List.foldl_nil]
  rw [parseStep_inert {} _ rfl (by decide) (by decide) (by decide) (by decide) (by decide)
      (by decide) (by decide),
    parseStep_inert {} _ rfl (by decide) (by decide) (by decide) (by decide) (by decide)
      (by decide) (by decide),
    parseStep_desc {} s.description.data hd2 hd3' hd4,
    parseStep_quantity _ q,
    parseStep_unit_price _ hup,
    parseStep_subtotal _ hupq,
    parseStep_tax _ htax0,
    parseStep_total _ htot0]
  rw [parseStep_inert _ [] rfl (by decide) (by decide) (by decide) (by decide) (by decide)
      (by decide) (by decide),
    parseStep_inert _ _ rfl (by decide) (by decide) (by decide) (by decide) (by decide)
      (by decide) (by decide),
    parseStep_inert _ _ rfl (by decide) (by decide) (by decide) (by decide) (by decide)
      (by decide) (by decide),
    parseStep_inert _ [] rfl (by decide) (by decide) (by decide) (by decide) (by decide)
      (by decide) (by decide)]
  dsimp only
  unfold parseFixups
  dsimp only
  rw [if_neg (show ¬(round2 (s.unit_price * (q : ℚ)) = 0 ∧ round2 s.unit_price > 0 ∧ q > 0)
    from fun h => hsub h.1)]
  dsimp only
  rw [if_neg (show ¬(round2 (s.unit_price * (q : ℚ) * 0.08) = 0 ∧
      round2 (s.unit_price * (q : ℚ)) > 0) from fun h => htax h.1)]
  dsimp only
  rw [if_neg (show ¬(round2 (s.unit_price * (q : ℚ) + s.unit_price * (q : ℚ) * 0.08) = 0 ∧
      round2 (s.unit_price * (q : ℚ)) > 0 ∧ round2 (s.unit_price * (q : ℚ) * 0.08) > 0)
    from fun h => htot h.1)]
  dsimp only
  have hjoin : [' '].intercalate ([] ++ [s.description.data]) = s.description.data := by
    simp [List.intercalate]
  rw [hjoin]

/-! ## Supporting lemmas: the resolver loop -/

theorem firstMissingLoop_complete (category : String) (info : Slots) (fields : List String)
    (h : ∀ f ∈ fields, slotTruthy info f = true) :
    firstMissingLoop category info fields = ⟨true, none, none⟩ := by
  induction fields with
  | nil => rfl
  | cons f fs ih =>
    unfold firstMissingLoop
    rw [h f (List.mem_cons_self _ _)]
    simp only [Bool.not_true, Bool.false_eq_true, if_false]
    exact ih fun g hg => h g (List.mem_cons_of_mem _ hg)

theorem firstMissingLoop_first (category : String) (info : Slots) (fields : List String)
    (f : String) (h : fields.find? (fun g => !slotTruthy info g) = some f) :
    (firstMissingLoop category info fields).has_enough_info = false ∧
      (firstMissingLoop category info fields).missing_key = some f := by
  induction fields with
  | nil => simp [List.find?] at h
  | cons g gs ih =>
    by_cases hg : slotTruthy info g = true
    · have hg' : (!slotTruthy info g) = false := by rw [hg]; rfl
      have hstep : List.find? (fun x => !slotTruthy info x) (g :: gs) =
          List.find? (fun x => !slotTruthy info x) gs :=
        List.find?_cons_of_neg _ (by simp [hg'])
      rw [hstep] at h
      unfold firstMissingLoop
      rw [hg']
      simp only [Bool.false_eq_true, if_false]
      exact ih h
    · have hg0 : slotTruthy info g = false := by simpa using hg
      have hg' : (!slotTruthy info g) = true := by rw [hg0]; rfl
      have hstep : List.find? (fun x => !slotTruthy info x) (g :: gs) = some g :=
        List.find?_cons_of_pos _ hg'
      rw [hstep] at h
      unfold firstMissingLoop
      rw [hg']
      cases h
      constructor <;> simp

theorem required_fields_ne_empty {c : String} {fields : List String}
    (h : required_fields c = some fields) : c ≠ "" := by
  intro hc
  subst hc
  simp [required_fields] at h

theorem determine_missing_info_known (llm : Slots → MissResult) (info : Slots)
    (c : String) (fields : List String)
    (hc : info.category = some c) (hf : required_fields c = some fields) :
    determine_missing_info llm info = firstMissingLoop c info fields := by
  have hcne : c ≠ "" := required_fields_ne_empty hf
  unfold determine_missing_info
  rw [hc]
  have hfill : strFilled (some c) = true := by simp [strFilled, hcne]
  rw [hfill]
  simp only [Bool.not_true, Bool.false_eq_true, if_false, Option.getD_some]
  rw [hf]

/-- C1: for a slot set whose category is one of the four known categories,
the resolver reports complete exactly when every required slot for that
category is truthy; with the category absent (or empty) it asks for the
category before anything else; with the category known but some required
slot missing it reports the first missing slot in the declared order —
and in all these cases the result does not depend on the LLM parameter. -/
theorem resolver_c1 (llm : Slots → MissResult) (info : Slots) :
    (strFilled info.category = false →
      determine_missing_info llm info =
        ⟨false, some "category",
          some "What type of service are you looking for? (e.g., Aircon Servicing, Aircon Installation, Aircon Repair, or Plumber)"⟩) ∧
    (∀ c fields, info.category = some c → required_fields c = some fields →
      ((∀ f ∈ fields, slotTruthy info f = true) →
        determine_missing_info llm info = ⟨true, none, none⟩) ∧
      (∀ f, fields.find? (fun g => !slotTruthy info g) = some f →
        (determine_missing_info llm info).has_enough_info = false ∧
          (determine_missing_info llm info).missing_key = some f) ∧
      (∀ llm2 : Slots → MissResult,
        determine_missing_info llm2 info = determine_missing_info llm info)) := by
  constructor
  · intro h
    unfold determine_missing_info
    rw [h]
    rfl
  · intro c fields hc hf
    refine ⟨?_, ?_, ?_⟩
    · intro hall
      rw [determine_missing_info_known llm info c fields hc hf]
      exact firstMissingLoop_complete c info fields hall
    · intro f hfind
      rw [determine_missing_info_known llm info c fields hc hf]
      exact firstMissingLoop_first c info fields f hfind
    · intro llm2
      rw [determine_missing_info_known llm info c fields hc hf,
        determine_missing_info_known llm2 info c fields hc hf]

/-- C1 witness: concrete resolver runs — a fully filled Aircon Servicing
slot set is complete, dropping `service_type` makes it the reported
missing slot, and the empty slot set asks for the category. -/
theorem resolver_c1_witness :
    determine_missing_info (fun _ => ⟨false, none, none⟩)
        { category := some "Aircon Servicing", unit_type := some "wall",
          service_type := some "chemical_cleaning", hp_size := some "3.0",
          quantity := some 2 } = ⟨true, none, none⟩ ∧
      (determine_missing_info (fun _ => ⟨false, none, none⟩)
        { category := some "Aircon Servicing", unit_type := some "wall" }).has_enough_info = false ∧
      (determine_missing_info (fun _ => ⟨false, none, none⟩)
        { category := some "Aircon Servicing", unit_type := some "wall" }).missing_key =
          some "service_type" ∧
      determine_missing_info (fun _ => ⟨false, none, none⟩) {} =
        ⟨false, some "category",
          some "What type of service are you looking for? (e.g., Aircon Servicing, Aircon Installation, Aircon Repair, or Plumber)"⟩ := by
  refine ⟨?_, ?_, ?_, ?_⟩
  · exact ((resolver_c1 _ _).2 "Aircon Servicing" _ rfl rfl).1 (by decide)
  · exact ((((resolver_c1 _ _).2 "Aircon Servicing" _ rfl rfl).2.1) "service_type" (by decide)).1
  · exact ((((resolver_c1 _ _).2 "Aircon Servicing" _ rfl rfl).2.1) "service_type" (by decide)).2
  · exact (resolver_c1 _ _).1 (by decide)

/-! ## C10: empty search terms give the empty result -/

theorem find_matching_of_terms_nil (fz : String → String → ℕ) (df : List Row) (info : Slots)
    (h : buildSearchTerms info (df.filter fun r => r.category == info.category.getD "") = some []) :
    find_matching_services fz df info = [] := by
  unfold find_matching_services
  by_cases hc : strFilled info.category = true
  · rw [hc]
    simp only [Bool.not_true, Bool.false_eq_true, if_false]
    by_cases he : (df.filter fun r => r.category == info.category.getD "").isEmpty = true
    · rw [if_cond_true he]
    · rw [if_cond_false (by simpa using he), h]
      rfl
  · rw [show strFilled info.category = false from by simpa using hc]
    rfl

/-- C10: whenever the derived search-term list is empty the matcher
returns no matches at all — even with the category present and candidate
rows available; in particular a slot set whose only phrase-producing slot
is the unmapped `unit_type = window` yields the empty result on every
data frame. -/
theorem matcher_c10 :
    (∀ (fz : String → String → ℕ) (df : List Row) (info : Slots),
      buildSearchTerms info (df.filter fun r => r.category == info.category.getD "") = some [] →
      find_matching_services fz df info = []) ∧
    (∀ (fz : String → String → ℕ) (df : List Row),
      find_matching_services fz df
        { category := some "Aircon Servicing", unit_type := some "window" } = []) := by
  constructor
  · exact find_matching_of_terms_nil
  · intro fz df
    exact find_matching_of_terms_nil fz df _ rfl

/-- C10 witness: the matcher run on a non-empty Aircon Servicing frame
with the window-only slot set returns no matches. -/
theorem matcher_c10_witness :
    find_matching_services (fun _ _ => 0)
      [⟨"I1", "Aircon Servicing", "WALL MOUNTED 3.0HP CHEMICAL", 100, 100, 8, 108⟩]
      { category := some "Aircon Servicing", unit_type := some "window" } = [] :=
  (matcher_c10).1 (fun _ _ => 0)
    [⟨"I1", "Aircon Servicing", "WALL MOUNTED 3.0HP CHEMICAL", 100, 100, 8, 108⟩]
    { category := some "Aircon Servicing", unit_type := some "window" } rfl

/-! ## Supporting lemmas: frame properties of the manual extraction rules -/

theorem mCategoryRule_frame (m : String) (e : Slots) :
    (mCategoryRule m e).unit_type = e.unit_type ∧
    (mCategoryRule m e).service_type = e.service_type ∧
    (mCategoryRule m e).hp_size = e.hp_size ∧
    (mCategoryRule m e).brand = e.brand ∧
    (mCategoryRule m e).fixture_type = e.fixture_type ∧
    (mCategoryRule m e).issue_type = e.issue_type ∧
    (mCategoryRule m e).quantity = e.quantity ∧
    (e.category.isSome = true → (mCategoryRule m e).category = e.category) := by
  simp only [mCategoryRule]
  repeat' split
  all_goals simp
  intro hc
  simp_all

theorem mUnitRule_frame (m : String) (e : Slots) :
    (mUnitRule m e).category = e.category ∧
    (mUnitRule m e).service_type = e.service_type ∧
    (mUnitRule m e).hp_size = e.hp_size ∧
    (mUnitRule m e).brand = e.brand ∧
    (mUnitRule m e).fixture_type = e.fixture_type ∧
    (mUnitRule m e).issue_type = e.issue_type ∧
    (mUnitRule m e).quantity = e.quantity ∧
    (e.unit_type.isSome = true → (mUnitRule m e).unit_type.isSome = true) := by
  simp only [mUnitRule]
  repeat' split
  all_goals simp

theorem mHpRule_frame (m : String) (lqt : Option String) (e : Slots) :
    (mHpRule m lqt e).category = e.category ∧
    (mHpRule m lqt e).unit_type = e.unit_type ∧
    (mHpRule m lqt e).service_type = e.service_type ∧
    (mHpRule m lqt e).brand = e.brand ∧
    (mHpRule m lqt e).fixture_type = e.fixture_type ∧
    (mHpRule m lqt e).issue_type = e.issue_type ∧
    (e.hp_size.isSome = true → (mHpRule m lqt e).hp_size.isSome = true) ∧
    (e.quantity.isSome = true → (mHpRule m lqt e).quantity.isSome = true) := by
  simp only [mHpRule]
  repeat' split
  all_goals simp

theorem mQtyRule_frame (m : String) (e : Slots) :
    (mQtyRule m e).category = e.category ∧
    (mQtyRule m e).unit_type = e.unit_type ∧
    (mQtyRule m e).service_type = e.service_type ∧
    (mQtyRule m e).hp_size = e.hp_size ∧
    (mQtyRule m e).brand = e.brand ∧
    (mQtyRule m e).fixture_type = e.fixture_type ∧
    (mQtyRule m e).issue_type = e.issue_type ∧
    (e.quantity.isSome = true → (mQtyRule m e).quantity.isSome = true) := by
  simp only [mQtyRule]
  repeat' split
  all_goals simp

theorem mServiceRule_frame (m : String) (e : Slots) :
    (mServiceRule m e).category = e.category ∧
    (mServiceRule m e).unit_type = e.unit_type ∧
    (mServiceRule m e).hp_size = e.hp_size ∧
    (mServiceRule m e).brand = e.brand ∧
    (mServiceRule m e).fixture_type = e.fixture_type ∧
    (mServiceRule m e).issue_type = e.issue_type ∧
    (mServiceRule m e).quantity = e.quantity ∧
    (e.service_type.isSome = true → (mServiceRule m e).service_type.isSome = true) := by
  simp only [mServiceRule]
  repeat' split
  all_goals simp

theorem mFixtureRule_frame (m : String) (e : Slots) :
    (mFixtureRule m e).category = e.category ∧
    (mFixtureRule m e).unit_type = e.unit_type ∧
    (mFixtureRule m e).service_type = e.service_type ∧
    (mFixtureRule m e).hp_size = e.hp_size ∧
    (mFixtureRule m e).brand = e.brand ∧
    (mFixtureRule m e).issue_type = e.issue_type ∧
    (mFixtureRule m e).quantity = e.quantity ∧
    (e.fixture_type.isSome = true → (mFixtureRule m e).fixture_type.isSome = true) := by
  simp only [mFixtureRule]
  repeat' split
  all_goals simp

theorem mIssueRule_frame (m : String) (e : Slots) :
    (mIssueRule m e).category = e.category ∧
    (mIssueRule m e).unit_type = e.unit_type ∧
    (mIssueRule m e).service_type = e.service_type ∧
    (mIssueRule m e).hp_size = e.hp_size ∧
    (mIssueRule m e).brand = e.brand ∧
    (mIssueRule m e).fixture_type = e.fixture_type ∧
    (mIssueRule m e).quantity = e.quantity ∧
    (e.issue_type.isSome = true → (mIssueRule m e).issue_type.isSome = true) := by
  simp only [mIssueRule]
  repeat' split
  all_goals simp

/-- C5 counterexample: with the intermediate extraction result carrying
`unit_type = "window"`, the manual pass over the message `"wall mounted"`
overwrites it to `"wall"` — refuting the claim that manual rules never
overwrite a slot already present. -/
theorem extractor_c5_counterexample :
    (({ unit_type := some "window" } : Slots)).unit_type = some "window" ∧
      (manualRules "wall mounted" none { unit_type := some "window" }).unit_type = some "wall" := by
  constructor
  · rfl
  · decide

/-- C5 amended: only the category default rule is guarded by key presence,
so an already-present category always keeps its value through the manual
pass, the brand slot is never touched, and no manual rule ever unsets a
slot — but the other manual rules may overwrite present values (as the
counterexample shows for `unit_type`). -/
theorem extractor_c5_amended (m : String) (lqt : Option String) (e : Slots) :
    (e.category.isSome = true → (manualRules m lqt e).category = e.category) ∧
    (manualRules m lqt e).brand = e.brand ∧
    (e.unit_type.isSome = true → (manualRules m lqt e).unit_type.isSome = true) ∧
    (e.service_type.isSome = true → (manualRules m lqt e).service_type.isSome = true) ∧
    (e.hp_size.isSome = true → (manualRules m lqt e).hp_size.isSome = true) ∧
    (e.quantity.isSome = true → (manualRules m lqt e).quantity.isSome = true) ∧
    (e.fixture_type.isSome = true → (manualRules m lqt e).fixture_type.isSome = true) ∧
    (e.issue_type.isSome = true → (manualRules m lqt e).issue_type.isSome = true) := by
  unfold manualRules
  set e1 := mCategoryRule m e with he1
  set e2 := mUnitRule m e1 with he2
  set e3 := mHpRule m lqt e2 with he3
  set e4 := mQtyRule m e3 with he4
  set e5 := mServiceRule m e4 with he5
  set e6 := mFixtureRule m e5 with he6
  obtain ⟨c1u, c1s, c1h, c1b, c1f, c1i, c1q, c1c⟩ := mCategoryRule_frame m e
  obtain ⟨c2c, c2s, c2h, c2b, c2f, c2i, c2q, c2u⟩ := mUnitRule_frame m e1
  obtain ⟨c3c, c3u, c3s, c3b, c3f, c3i, c3h, c3q⟩ := mHpRule_frame m lqt e2
  obtain ⟨c4c, c4u, c4s, c4h, c4b, c4f, c4i, c4q⟩ := mQtyRule_frame m e3
  obtain ⟨c5c, c5u, c5h, c5b, c5f, c5i, c5q, c5s⟩ := mServiceRule_frame m e4
  obtain ⟨c6c, c6u, c6s, c6h, c6b, c6i, c6q, c6f⟩ := mFixtureRule_frame m e5
  obtain ⟨c7c, c7u, c7s, c7h, c7b, c7f, c7q, c7i⟩ := mIssueRule_frame m e6
  refine ⟨?_, ?_, ?_, ?_, ?_, ?_, ?_, ?_⟩
  · intro h
    rw [c7c, c6c, c5c, c4c, c3c, c2c, c1c h]
  · rw [c7b, c6b, c5b, c4b, c3b, c2b, c1b]
  · intro h
    rw [c7u, c6u, c5u, c4u, c3u]
    exact c2u (by rw [c1u]; exact h)
  · intro h
    rw [c7s, c6s]
    exact c5s (by rw [c4s, c3s, c2s, c1s]; exact h)
  · intro h
    rw [c7h, c6h, c5h, c4h]
    exact c3h (by rw [c2h, c1h]; exact h)
  · intro h
    rw [c7q, c6q, c5q]
    exact c4q (c3q (by rw [c2q, c1q]; exact h))
  · intro h
    rw [c7f]
    exact c6f (by rw [c5f, c4f, c3f, c2f, c1f]; exact h)
  · intro h
    exact c7i (by rw [c6i, c5i, c4i, c3i, c2i, c1i]; exact h)

/-- C5 witness: a concrete run of the amended frame property — the
present category and brand survive a message that fires several manual
rules, and the present quantity stays set. -/
theorem extractor_c5_witness :
    (manualRules "chemical wash for toilet leak" none
      { category := some "Plumber", brand := some "daikin", quantity := some 4 }).category =
        some "Plumber" ∧
    (manualRules "chemical wash for toilet leak" none
      { category := some "Plumber", brand := some "daikin", quantity := some 4 }).brand =
        some "daikin" ∧
    (manualRules "chemical wash for toilet leak" none
      { category := some "Plumber", brand := some "daikin", quantity := some 4 }).quantity.isSome =
        true := by
  refine ⟨?_, ?_, ?_⟩
  · exact (extractor_c5_amended "chemical wash for toilet leak" none
      { category := some "Plumber", brand := some "daikin", quantity := some 4 }).1 (by decide)
  · exact (extractor_c5_amended "chemical wash for toilet leak" none
      { category := some "Plumber", brand := some "daikin", quantity := some 4 }).2.1
  · exact (extractor_c5_amended "chemical wash for toilet leak" none
      { category := some "Plumber", brand := some "daikin", quantity := some 4 }).2.2.2.2.2.1 (by decide)

/-- C9: the extractor never propagates an exception — whenever the body
of `extract_entities_with_llm` raises (for any behaviour of the LLM
initialization, the analysis cache, the completion call and the JSON
parser), the function returns the empty slot set; and in every case the
result is either the body's value or the empty slot set. -/
theorem extractor_c9 (env : ExtractorEnv) (message : String) (lqt : Option String) :
    (∀ er : Unit, extractBody env message lqt = .error er →
      extract_entities_with_llm env message lqt = emptySlots) ∧
    (extractBody env message lqt = .ok (extract_entities_with_llm env message lqt) ∨
      extract_entities_with_llm env message lqt = emptySlots) := by
  constructor
  · intro er he
    unfold extract_entities_with_llm
    rw [he]
    rfl
  · cases h : extractBody env message lqt with
    | ok s =>
      left
      unfold extract_entities_with_llm
      rw [h]
    | error e =>
      right
      unfold extract_entities_with_llm
      rw [h]
      rfl

/-- C9 witness: with every external step failing, the body raises and the
extractor returns the empty slot set. -/
theorem extractor_c9_witness :
    extractBody ⟨.error (), .error (), fun _ => .error (), fun _ => none⟩ "hello there" none =
      .error () ∧
    extract_entities_with_llm ⟨.error (), .error (), fun _ => .error (), fun _ => none⟩
      "hello there" none = emptySlots := by
  refine ⟨rfl, ?_⟩
  exact (extractor_c9 ⟨.error (), .error (), fun _ => .error (), fun _ => none⟩
    "hello there" none).1 () rfl

/-- C6: on a confirmation-intent message in the quotation-presented state
the code flips the two confirmation flags and returns the stored
quotation with `display_quotation = true` — but it appends nothing to any
confirmed-quotations list: the `confirmed_quotations` key (which
`main.py`'s `get_quotation_data` reads) is never created, so the list the
claim says gains exactly one entry does not gain one.  The result is
independent of the LLM-driven remainder of the turn. -/
theorem confirm_c6_codebug (df : ChatContext → ChatResponse × ChatContext) (infoResp : String) :
    process_message ⟨true, false, false⟩ infoResp df "yes"
        (some { last_quotation := some "Q", chat_history := [("a", "b")] }) =
      ({ response := confirmAckMsg, display_quotation := true, quotation := some "Q" },
        some { last_quotation := some "Q", chat_history := [("a", "b"), ("yes", confirmAckMsg)], quotation_confirmed := true, asked_for_another_quotation := true, confirmed_quotations := none }) := by
  rfl

/-- C8 counterexample: in the asking-for-another state, the
negative-intent message `"nope"` (the negativity classifier returns
true) is not in the fixed quit list, so the code clears the slots and
asks for another service instead of producing the closing message. -/
theorem state_c8_counterexample :
    process_message ⟨false, false, true⟩ "" (fun c => (⟨"", false, none⟩, c)) "nope"
        (some { category := some "Plumber", fixture_type := some "toilet", last_quotation := some "Q", quotation_confirmed := true, asked_for_another_quotation := true }) =
      ({ response := anotherMsg, display_quotation := false, quotation := none },
        some { chat_history := [("nope", anotherMsg)] }) ∧
      anotherMsg ≠ closingMsg := by
  constructor
  · rfl
  · decide

/-- C8 amended: in the asking-for-another state (both flags set), with a
non-reset message that does not classify as an information request, the
conversation closes exactly when the lowercased message is one of the six
quit tokens; every other message — whatever the affirmative and negative
classifiers say — clears all eight slots, drops the stored quotation,
resets both flags and asks for the next service. -/
theorem state_c8_amended (cls : Classifiers) (infoResp : String)
    (df : ChatContext → ChatResponse × ChatContext) (message : String) (context : ChatContext)
    (hr : ¬ lowerS message = "reset")
    (hi : classify_user_intent cls.isConfirmation cls.isNegative message
        context.last_question_type ∉ ["information_request", "price_info", "popular_services_info"])
    (ha : context.asked_for_another_quotation = true)
    (hq : context.quotation_confirmed = true) :
    (lowerS message ∈ quitList →
      process_message cls infoResp df message (some context) =
        ({ response := closingMsg, display_quotation := false, quotation := none },
          some { context with chat_history := context.chat_history ++ [(message, closingMsg)] })) ∧
    (lowerS message ∉ quitList →
      process_message cls infoResp df message (some context) =
        ({ response := anotherMsg, display_quotation := false, quotation := none },
          some { context with category := none, unit_type := none, service_type := none, hp_size := none, brand := none, fixture_type := none, issue_type := none, quantity := none, last_quotation := none, quotation_confirmed := false, asked_for_another_quotation := false, information_gathering_stage := true, chat_history := context.chat_history ++ [(message, anotherMsg)] })) := by
  have hconf : ¬(strFilled context.last_quotation = true ∧
      (!context.quotation_confirmed) = true ∧ cls.isConfirmation = true) := by
    rintro ⟨-, h2, -⟩
    rw [hq] at h2
    exact absurd h2 (by decide)
  constructor
  · intro hquit
    simp only [process_message, Option.getD]
    rw [if_neg hr, if_neg hi, if_neg hconf, if_pos ⟨ha, hq⟩, if_pos hquit]
  · intro hnot
    simp only [process_message, Option.getD]
    rw [if_neg hr, if_neg hi, if_neg hconf, if_pos ⟨ha, hq⟩, if_neg hnot,
      if_pos (Or.inr hnot)]

/-- C8 witness: with all classifiers false, the quit token `"done"`
closes the conversation and the non-quit message `"nah"` restarts slot
gathering, at a concrete context with both flags set. -/
theorem state_c8_witness :
    process_message ⟨false, false, false⟩ "" (fun c => (⟨"", false, none⟩, c)) "done"
        (some { last_quotation := some "Q", quotation_confirmed := true, asked_for_another_quotation := true }) =
      ({ response := closingMsg, display_quotation := false, quotation := none },
        some { last_quotation := some "Q", quotation_confirmed := true, asked_for_another_quotation := true, chat_history := [("done", closingMsg)] }) ∧
    process_message ⟨false, false, false⟩ "" (fun c => (⟨"", false, none⟩, c)) "nah"
        (some { last_quotation := some "Q", quotation_confirmed := true, asked_for_another_quotation := true }) =
      ({ response := anotherMsg, display_quotation := false, quotation := none },
        some { information_gathering_stage := true, chat_history := [("nah", anotherMsg)] }) := by
  constructor
  · exact (state_c8_amended ⟨false, false, false⟩ "" (fun c => (⟨"", false, none⟩, c)) "done"
      { last_quotation := some "Q", quotation_confirmed := true, asked_for_another_quotation := true }
      (by decide) (by decide) rfl rfl).1 (by decide)
  · exact (state_c8_amended ⟨false, false, false⟩ "" (fun c => (⟨"", false, none⟩, c)) "nah"
      { last_quotation := some "Q", quotation_confirmed := true, asked_for_another_quotation := true }
      (by decide) (by decide) rfl rfl).2 (by decide)

/-! ## Supporting lemmas: the horsepower search-term stages -/

theorem foldl_invariant {α β : Type _} (P : β → Prop) (f : β → α → β) (l : List α)
    (init : β) (h0 : P init) (hstep : ∀ b a, P b → P (f b a)) : P (l.foldl f init) := by
  induction l generalizing init with
  | nil => exact h0
  | cons a as ih => exact ih (f init a) (hstep init a h0)

theorem hpExactFold_snd_ne_nil (hp : ℚ) (descs st : List String)
    (h : (hpExactFold hp descs st).2 = true) : (hpExactFold hp descs st).1 ≠ [] := by
  unfold hpExactFold
  unfold hpExactFold at h
  revert h
  refine foldl_invariant
    (fun acc => acc.2 = true → acc.1 ≠ []) _ descs (st, false) (by simp) ?_
  intro b a hb
  dsimp only
  split
  · intro _
    simp
  · exact hb

/-- C4 counterexample: with requested horsepower 3 and a lone candidate
description `CEILING 2HP TO 4HP CHEMICAL`, no exact token qualifies
(`4HP` is off by 1), the containing range `2HP TO 4HP` is found — and the
literal fallback `3HP` is appended anyway, refuting the claim that the
literal appears only when neither an exact nor a range token was found. -/
theorem matcher_c4_counterexample :
    hpExactFold 3 ["CEILING 2HP TO 4HP CHEMICAL"] [] = ([], false) ∧
    buildSearchTerms { category := some "Aircon Servicing", hp_size := some "3" }
        [⟨"I1", "Aircon Servicing", "CEILING 2HP TO 4HP CHEMICAL", 100, 100, 8, 108⟩] =
      some ["2HP TO 4HP", "3HP"] := by
  constructor
  · decide
  · decide

/-- C4 amended: the horsepower stages obey this precedence instead — when
an exact token was found the term list is exactly the exact-stage
accumulator and no literal is appended; when no exact token was found the
range stage runs and the literal formatted horsepower is always appended,
whether or not a range token was added. -/
theorem matcher_c4_amended (hp : ℚ) (descs st : List String) :
    ((hpExactFold hp descs st).2 = true →
      hpTerms hp descs st = (hpExactFold hp descs st).1) ∧
    ((hpExactFold hp descs st).2 = false →
      hpTerms hp descs st =
        hpRangeFold hp descs (hpExactFold hp descs st).1 ++
          [String.mk (fmt1strip hp ++ ['H', 'P'])]) := by
  constructor
  · intro h
    have hne := hpExactFold_snd_ne_nil hp descs st h
    have hemp : (hpExactFold hp descs st).1.isEmpty = false := by
      cases hl : (hpExactFold hp descs st).1 with
      | nil => exact absurd hl hne
      | cons a as => rfl
    simp only [hpTerms]
    rw [if_cond_true h, if_cond_false (by rw [hemp, h]; rfl)]
  · intro h
    simp only [hpTerms]
    rw [if_cond_false h, if_cond_true (by rw [h]; simp)]

/-- C4 witness: a concrete run of each branch — with description
`WALL 3.0HP CHEMICAL` the exact stage finds `3.0HP` and the term list is
the exact accumulator alone; with description `CEILING 2HP TO 4HP` the
exact stage fails and the literal `3HP` is appended after the range
stage. -/
theorem matcher_c4_witness :
    hpTerms 3 ["WALL 3.0HP CHEMICAL"] [] = (hpExactFold 3 ["WALL 3.0HP CHEMICAL"] []).1 ∧
    (hpExactFold 3 ["WALL 3.0HP CHEMICAL"] []).1 = ["3.0HP"] ∧
    hpTerms 3 ["CEILING 2HP TO 4HP"] [] =
      hpRangeFold 3 ["CEILING 2HP TO 4HP"] (hpExactFold 3 ["CEILING 2HP TO 4HP"] []).1 ++
        [String.mk (fmt1strip 3 ++ ['H', 'P'])] ∧
    hpRangeFold 3 ["CEILING 2HP TO 4HP"] (hpExactFold 3 ["CEILING 2HP TO 4HP"] []).1 ++
        [String.mk (fmt1strip 3 ++ ['H', 'P'])] = ["2HP TO 4HP", "3HP"] := by
  refine ⟨?_, by decide, ?_, by decide⟩
  · exact (matcher_c4_amended 3 ["WALL 3.0HP CHEMICAL"] []).1 (by decide)
  · exact (matcher_c4_amended 3 ["CEILING 2HP TO 4HP"] []).2 (by decide)

/-- C2: the no-labor convention.  The generated quotation consists of
exactly the fixed twelve lines — header, description, quantity, unit
price, `Subtotal = unit_price * quantity`, `Tax (8%) = subtotal * 0.08`,
`Total = subtotal + tax`, and the two-line footer — with no labor line:
every line other than the description line is free of the substring
`Labor`.  The downstream parser applies the same 8% convention: on a
parsed state with a positive subtotal and missing tax and total it
reconstructs `tax = subtotal * 0.08` and `total = subtotal + tax`. -/
theorem formatter_c2 (s : MatchResult) (q : Nat) (hd : '\n' ∉ s.description.data) :
    splitNl (generate_quotation s q).data =
      ["SERVICE QUOTATION".data,
        "------------------".data,
        "Service Description: ".data ++ s.description.data,
        "Quantity: ".data ++ natToChars q,
        "Unit Price (RM): ".data ++ fmt2 s.unit_price,
        "Subtotal: ".data ++ fmt2 (s.unit_price * (q : ℚ)),
        "Tax (8%): ".data ++ fmt2 (s.unit_price * (q : ℚ) * 0.08),
        "Total: ".data ++ fmt2 (s.unit_price * (q : ℚ) + s.unit_price * (q : ℚ) * 0.08),
        [],
        "This quotation is based on our database of similar services.".data,
        "Additional charges may apply depending on specific requirements.".data,
        []] ∧
    (∀ l ∈ splitNl (generate_quotation s q).data,
      l ≠ "Service Description: ".data ++ s.description.data →
      containsSeq "Labor".data l = false) ∧
    (∀ st : PState, 0 < st.subtotal → st.tax = 0 → st.total = 0 →
      parseFixups st = { st with tax := st.subtotal * 0.08, total := st.subtotal + st.subtotal * 0.08 }) := by
  refine ⟨splitNl_generate s q hd, ?_, ?_⟩
  · intro l hl hne
    rw [splitNl_generate s q hd] at hl
    have hL : ('L' : Char) ∈ "Labor".data := by decide
    have hdig : isDigitC 'L' = false := by decide
    simp only [List.mem_cons, List.not_mem_nil, or_false] at hl
    rcases hl with rfl | rfl | rfl | rfl | rfl | rfl | rfl | rfl | rfl | rfl | rfl | rfl
    · decide
    · decide
    · exact absurd rfl hne
    · refine containsSeq_eq_false_of_missing hL ?_
      rw [List.mem_append]
      rintro (h | h)
      · revert h
        decide
      · exact not_mem_natToChars_of hdig h
    · refine containsSeq_eq_false_of_missing hL ?_
      rw [List.mem_append]
      rintro (h | h)
      · revert h
        decide
      · exact not_mem_fmt2_of hdig (by decide) h
    · refine containsSeq_eq_false_of_missing hL ?_
      rw [List.mem_append]
      rintro (h | h)
      · revert h
        decide
      · exact not_mem_fmt2_of hdig (by decide) h
    · refine containsSeq_eq_false_of_missing hL ?_
      rw [List.mem_append]
      rintro (h | h)
      · revert h
        decide
      · exact not_mem_fmt2_of hdig (by decide) h
    · refine containsSeq_eq_false_of_missing hL ?_
      rw [List.mem_append]
      rintro (h | h)
      · revert h
        decide
      · exact not_mem_fmt2_of hdig (by decide) h
    · decide
    · decide
    · decide
    · decide
  · intro st hsub htax htot
    have hsne : st.subtotal ≠ 0 := ne_of_gt hsub
    have htaxpos : (0 : ℚ) < st.subtotal * 0.08 := mul_pos hsub (by norm_num)
    simp only [parseFixups]
    rw [if_neg (show ¬(st.subtotal = 0 ∧ st.unit_price > 0 ∧ st.quantity > 0) from
      fun h => hsne h.1)]
    rw [if_pos (show st.tax = 0 ∧ st.subtotal > 0 from ⟨htax, hsub⟩)]
    dsimp only
    rw [if_pos ⟨htot, hsub, htaxpos⟩]

/-- C2 witness: at unit price 100 and quantity 2 the generated lines
display `Subtotal: 200.00`, `Tax (8%): 16.00` and `Total: 216.00`, and
the parser's fixup pass reconstructs tax 16 and total 216 from a parsed
subtotal of 200. -/
theorem formatter_c2_witness :
    splitNl (generate_quotation ⟨"I1", "Aircon Servicing", "WALL MOUNTED 1.0HP BASIC", 100, 200, 16, 216, 100⟩ 2).data =
      ["SERVICE QUOTATION".data,
        "------------------".data,
        "Service Description: ".data ++ "WALL MOUNTED 1.0HP BASIC".data,
        "Quantity: ".data ++ natToChars 2,
        "Unit Price (RM): ".data ++ fmt2 (100 : ℚ),
        "Subtotal: ".data ++ fmt2 ((100 : ℚ) * ((2 : ℕ) : ℚ)),
        "Tax (8%): ".data ++ fmt2 ((100 : ℚ) * ((2 : ℕ) : ℚ) * 0.08),
        "Total: ".data ++ fmt2 ((100 : ℚ) * ((2 : ℕ) : ℚ) + (100 : ℚ) * ((2 : ℕ) : ℚ) * 0.08),
        [],
        "This quotation is based on our database of similar services.".data,
        "Additional charges may apply depending on specific requirements.".data,
        []] ∧
    fmt2 ((100 : ℚ) * ((2 : ℕ) : ℚ)) = "200.00".data ∧
    fmt2 ((100 : ℚ) * ((2 : ℕ) : ℚ) * 0.08) = "16.00".data ∧
    fmt2 ((100 : ℚ) * ((2 : ℕ) : ℚ) + (100 : ℚ) * ((2 : ℕ) : ℚ) * 0.08) = "216.00".data ∧
    parseFixups ⟨false, [], 2, 100, 200, 0, 0⟩ = ⟨false, [], 2, 100, 200, 200 * 0.08, 200 + 200 * 0.08⟩ := by
  refine ⟨(formatter_c2 ⟨"I1", "Aircon Servicing", "WALL MOUNTED 1.0HP BASIC", 100, 200, 16, 216, 100⟩ 2 (by decide)).1,
    by decide, by decide, by decide, ?_⟩
  exact (formatter_c2 ⟨"I1", "Aircon Servicing", "WALL MOUNTED 1.0HP BASIC", 100, 200, 16, 216, 100⟩ 2 (by decide)).2.2
    ⟨false, [], 2, 100, 200, 0, 0⟩ (by norm_num) rfl rfl

/-- C7 counterexample: at unit price `0.01` and quantity 1 the formatter
prints `Tax (8%): 0.00`; the parser reads tax `0`, treats it as missing,
and recomputes `tax = subtotal * 0.08 = 0.0008 = 1/1250` — which differs
from the formatter's computed tax rounded to two decimals (`0`), refuting
the unconditional round-trip claim. -/
theorem roundtrip_c7_counterexample :
    (parse_quotation_text (generate_quotation
        ⟨"I1", "Aircon Servicing", "WALL MOUNTED 1.0HP BASIC", 1/100, 1, 1, 1, 100⟩ 1)).tax =
      1/1250 ∧
    round2 ((1/100 : ℚ) * ((1 : ℕ) : ℚ) * 0.08) = 0 ∧
    ((1 : ℚ)/1250) ≠ 0 := by
  refine ⟨?_, by decide, by decide⟩
  decide

/-- C7 amended: the round trip holds under the side conditions the code
needs — a clean single-line description and amounts whose two-decimal
roundings are non-zero (so the parser's missing-field fixups stay
inactive): then parsing the generated quotation recovers the description,
the quantity, and the unit price, subtotal, tax and total rounded to two
decimals. -/
theorem roundtrip_c7 (s : MatchResult) (q : Nat)
    (hd1 : '\n' ∉ s.description.data)
    (hd2 : stripL s.description.data = s.description.data)
    (hd3 : s.description ≠ "")
    (hd4 : containsSeq "Service Description:".data s.description.data = false)
    (hup : 0 ≤ s.unit_price)
    (hsub : round2 (s.unit_price * (q : ℚ)) ≠ 0)
    (htax : round2 (s.unit_price * (q : ℚ) * 0.08) ≠ 0)
    (htot : round2 (s.unit_price * (q : ℚ) + s.unit_price * (q : ℚ) * 0.08) ≠ 0) :
    parse_quotation_text (generate_quotation s q) =
      ⟨s.description, q, round2 s.unit_price, round2 (s.unit_price * (q : ℚ)),
        round2 (s.unit_price * (q : ℚ) * 0.08),
        round2 (s.unit_price * (q : ℚ) + s.unit_price * (q : ℚ) * 0.08)⟩ :=
  parse_generate s q hd1 hd2 hd3 hd4 hup hsub htax htot

/-- C7 witness: the round trip at unit price 100 and quantity 2 — the
parse of the generated text returns description, quantity 2, unit price
100, subtotal 200, tax 16 and total 216. -/
theorem roundtrip_c7_witness :
    parse_quotation_text (generate_quotation
        ⟨"I1", "Aircon Servicing", "WALL MOUNTED 1.0HP BASIC", 100, 200, 16, 216, 100⟩ 2) =
      ⟨"WALL MOUNTED 1.0HP BASIC", 2, round2 100, round2 ((100 : ℚ) * ((2 : ℕ) : ℚ)),
        round2 ((100 : ℚ) * ((2 : ℕ) : ℚ) * 0.08),
        round2 ((100 : ℚ) * ((2 : ℕ) : ℚ) + (100 : ℚ) * ((2 : ℕ) : ℚ) * 0.08)⟩ :=
  roundtrip_c7 ⟨"I1", "Aircon Servicing", "WALL MOUNTED 1.0HP BASIC", 100, 200, 16, 216, 100⟩ 2
    (by decide) (by decide) (by decide) (by decide) (by decide) (by decide) (by decide) (by decide)

/-! ## Supporting lemmas: the fuzzy matcher's score and sort -/

theorem foldl_add_if_count (p : String → Bool) (c : ℚ) :
    ∀ (l : List String) (init : ℚ),
      l.foldl (fun acc t => if p t then acc + c else acc) init =
        init + (l.countP p : ℚ) * c := by
  intro l
  induction l with
  | nil =>
    intro init
    simp
  | cons a as ih =>
    intro init
    simp only [List.foldl_cons]
    by_cases hp : p a = true
    · rw [if_pos hp, ih, List.countP_cons_of_pos _ _ hp]
      push_cast
      ring
    · rw [if_neg (by simp [hp]), ih, List.countP_cons_of_neg _ _ (by simp [hp])]

theorem rowScore_eq (fz : String → String → ℕ) (terms : List String) (d : String)
    (hne : terms ≠ []) :
    rowScore fz terms d =
      if terms.countP (fun t => containsSeq (lowerS t).data d.data) = 0 then
        terms.foldl (fun acc t => acc + (fz (lowerS t) d : ℚ) / (terms.length : ℚ)) 0
      else
        (terms.countP (fun t => containsSeq (lowerS t).data d.data) : ℚ) *
          (100 / (terms.length : ℚ)) := by
  have hlen : (0 : ℚ) < (terms.length : ℚ) := by
    have : 0 < terms.length := List.length_pos.mpr hne
    exact_mod_cast this
  simp only [rowScore]
  rw [foldl_add_if_count (fun t => containsSeq (lowerS t).data d.data) (100 / (terms.length : ℚ))
    terms 0, zero_add]
  by_cases hc : terms.countP (fun t => containsSeq (lowerS t).data d.data) = 0
  · rw [if_pos hc, if_pos (by rw [hc]; simp)]
  · have hcpos : (0 : ℚ) < (terms.countP (fun t => containsSeq (lowerS t).data d.data) : ℚ) := by
      have : 0 < terms.countP (fun t => containsSeq (lowerS t).data d.data) :=
        Nat.pos_of_ne_zero hc
      exact_mod_cast this
    have hbpos : (0 : ℚ) <
        (terms.countP (fun t => containsSeq (lowerS t).data d.data) : ℚ) *
          (100 / (terms.length : ℚ)) :=
      mul_pos hcpos (div_pos (by norm_num) hlen)
    rw [if_neg hc, if_neg (ne_of_gt hbpos)]

/-- C3: the fuzzy matcher.  With the category present and a non-empty
search-term list: the per-row score adds `100 / num_terms` per term
occurring in the (lowercased) description and falls back to the
partial-ratio sum divided by `num_terms` exactly when no term occurs; a
match record is in the result iff some candidate row of the category
scores at least 30 and the record is built from it; the result is sorted
by descending score; and rows of equal score keep their original
data-frame order (the result's restriction to each score equals the
unsorted pass's restriction). -/
theorem matcher_c3 (fz : String → String → ℕ) (df : List Row) (info : Slots)
    (terms : List String)
    (hcat : strFilled info.category = true)
    (hterms : buildSearchTerms info
      (df.filter (fun r => r.category == info.category.getD "")) = some terms)
    (hne : terms ≠ []) :
    (∀ (ts : List String) (d : String), ts ≠ [] →
      rowScore fz ts d =
        if ts.countP (fun t => containsSeq (lowerS t).data d.data) = 0 then
          ts.foldl (fun acc t => acc + (fz (lowerS t) d : ℚ) / (ts.length : ℚ)) 0
        else (ts.countP (fun t => containsSeq (lowerS t).data d.data) : ℚ) *
          (100 / (ts.length : ℚ))) ∧
    (∀ m, m ∈ find_matching_services fz df info ↔
      ∃ row, row ∈ df.filter (fun r => r.category == info.category.getD "") ∧
        (30 : ℚ) ≤ rowScore fz terms (lowerS row.item_description) ∧
        m = mkMatch row (rowScore fz terms (lowerS row.item_description))) ∧
    List.Pairwise (fun a b => b.match_score ≤ a.match_score)
      (find_matching_services fz df info) ∧
    (∀ c : ℚ,
      (find_matching_services fz df info).filter (fun m => m.match_score == c) =
        ((df.filter (fun r => r.category == info.category.getD "")).filterMap (fun row =>
          if (30 : ℚ) ≤ rowScore fz terms (lowerS row.item_description) then
            some (mkMatch row (rowScore fz terms (lowerS row.item_description)))
          else none)).filter (fun m => m.match_score == c)) := by
  have htrans : ∀ a b c : MatchResult,
      decide (b.match_score ≤ a.match_score) → decide (c.match_score ≤ b.match_score) →
      decide (c.match_score ≤ a.match_score) := by
    intro a b c h1 h2
    rw [decide_eq_true_eq] at h1 h2 ⊢
    exact le_trans h2 h1
  have htotal : ∀ a b : MatchResult,
      decide (b.match_score ≤ a.match_score) || decide (a.match_score ≤ b.match_score) := by
    intro a b
    rcases le_total a.match_score b.match_score with h | h <;> simp [h]
  have hres : find_matching_services fz df info =
      ((df.filter (fun r => r.category == info.category.getD "")).filterMap (fun row =>
        if (30 : ℚ) ≤ rowScore fz terms (lowerS row.item_description) then
          some (mkMatch row (rowScore fz terms (lowerS row.item_description)))
        else none)).mergeSort (fun a b => decide (b.match_score ≤ a.match_score)) := by
    simp only [find_matching_services]
    rw [if_cond_false (by rw [hcat]; rfl)]
    by_cases hemp :
        (df.filter (fun r => r.category == info.category.getD "")).isEmpty = true
    · rw [if_cond_true hemp]
      rw [List.isEmpty_iff.mp hemp]
      simp
    · rw [if_cond_false (Bool.of_not_eq_true hemp), hterms]
      have hie : terms.isEmpty = false := by
        cases ht : terms with
        | nil => exact absurd ht hne
        | cons x xs => rfl
      dsimp only
      rw [if_cond_false hie]
  have hmem : ∀ m, m ∈ ((df.filter (fun r => r.category == info.category.getD "")).filterMap
      (fun row =>
        if (30 : ℚ) ≤ rowScore fz terms (lowerS row.item_description) then
          some (mkMatch row (rowScore fz terms (lowerS row.item_description)))
        else none)) ↔
      ∃ row, row ∈ df.filter (fun r => r.category == info.category.getD "") ∧
        (30 : ℚ) ≤ rowScore fz terms (lowerS row.item_description) ∧
        m = mkMatch row (rowScore fz terms (lowerS row.item_description)) := by
    intro m
    rw [List.mem_filterMap]
    constructor
    · rintro ⟨row, hrow, hf⟩
      by_cases h30 : (30 : ℚ) ≤ rowScore fz terms (lowerS row.item_description)
      · rw [if_pos h30] at hf
        exact ⟨row, hrow, h30, (Option.some.inj hf).symm⟩
      · rw [if_neg h30] at hf
        cases hf
    · rintro ⟨row, hrow, h30, rfl⟩
      exact ⟨row, hrow, by rw [if_pos h30]⟩
  refine ⟨fun ts d h => rowScore_eq fz ts d h, ?_, ?_, ?_⟩
  · intro m
    rw [hres, List.mem_mergeSort]
    exact hmem m
  · rw [hres]
    have hp := List.sorted_mergeSort htrans htotal
      ((df.filter (fun r => r.category == info.category.getD "")).filterMap (fun row =>
        if (30 : ℚ) ≤ rowScore fz terms (lowerS row.item_description) then
          some (mkMatch row (rowScore fz terms (lowerS row.item_description)))
        else none))
    exact hp.imp (fun h => decide_eq_true_eq.mp h)
  · intro c
    rw [hres]
    set ms := (df.filter (fun r => r.category == info.category.getD "")).filterMap (fun row =>
      if (30 : ℚ) ≤ rowScore fz terms (lowerS row.item_description) then
        some (mkMatch row (rowScore fz terms (lowerS row.item_description)))
      else none) with hms
    have hall : ∀ x ∈ ms.filter (fun m => m.match_score == c), x.match_score = c := by
      intro x hx
      have := (List.mem_filter.mp hx).2
      exact beq_iff_eq.mp this
    have hpair : (ms.filter (fun m => m.match_score == c)).Pairwise
        (fun a b => decide (b.match_score ≤ a.match_score) = true) := by
      apply List.pairwise_of_forall_mem_list
      intro a ha b hb
      rw [decide_eq_true_eq, hall a ha, hall b hb]
    have hsub : (ms.filter (fun m => m.match_score == c)).Sublist
        (ms.mergeSort (fun a b => decide (b.match_score ≤ a.match_score))) :=
      List.sublist_mergeSort htrans htotal hpair (List.filter_sublist ms)
    have hsub2 : (ms.filter (fun m => m.match_score == c)).Sublist
        ((ms.mergeSort (fun a b => decide (b.match_score ≤ a.match_score))).filter
          (fun m => m.match_score == c)) := by
      have h1 := hsub.filter (fun m => m.match_score == c)
      rwa [List.filter_filter, show
        (fun m : MatchResult => (m.match_score == c) && (m.match_score == c)) =
          (fun m : MatchResult => m.match_score == c) from funext (fun m => by
            cases h : (m.match_score == c) <;> simp [h])] at h1
    have hlen : ((ms.mergeSort (fun a b => decide (b.match_score ≤ a.match_score))).filter
        (fun m => m.match_score == c)).length =
        (ms.filter (fun m => m.match_score == c)).length :=
      ((List.mergeSort_perm ms _).filter _).length_eq
    exact (hsub2.eq_of_length hlen.symm).symm

/-- C3 witness: a concrete run — with the single search term
`wall mounted`, the wall-mounted row scores 100 and is in the result,
and the result is sorted by descending score. -/
theorem matcher_c3_witness :
    List.Pairwise (fun a b => b.match_score ≤ a.match_score)
      (find_matching_services (fun _ _ => 0)
        [⟨"I1", "Aircon Servicing", "WALL MOUNTED 1.0HP BASIC", 100, 100, 8, 108⟩,
          ⟨"I2", "Aircon Servicing", "CEILING CASSETTE 2.0HP", 150, 150, 12, 162⟩]
        { category := some "Aircon Servicing", unit_type := some "wall" }) ∧
    mkMatch ⟨"I1", "Aircon Servicing", "WALL MOUNTED 1.0HP BASIC", 100, 100, 8, 108⟩
        (rowScore (fun _ _ => 0) ["wall mounted"] (lowerS "WALL MOUNTED 1.0HP BASIC")) ∈
      find_matching_services (fun _ _ => 0)
        [⟨"I1", "Aircon Servicing", "WALL MOUNTED 1.0HP BASIC", 100, 100, 8, 108⟩,
          ⟨"I2", "Aircon Servicing", "CEILING CASSETTE 2.0HP", 150, 150, 12, 162⟩]
        { category := some "Aircon Servicing", unit_type := some "wall" } := by
  refine ⟨(matcher_c3 (fun _ _ => 0)
      [⟨"I1", "Aircon Servicing", "WALL MOUNTED 1.0HP BASIC", 100, 100, 8, 108⟩,
        ⟨"I2", "Aircon Servicing", "CEILING CASSETTE 2.0HP", 150, 150, 12, 162⟩]
      { category := some "Aircon Servicing", unit_type := some "wall" }
      ["wall mounted"] (by decide) (by decide) (by decide)).2.2.1, ?_⟩
  refine ((matcher_c3 (fun _ _ => 0)
      [⟨"I1", "Aircon Servicing", "WALL MOUNTED 1.0HP BASIC", 100, 100, 8, 108⟩,
        ⟨"I2", "Aircon Servicing", "CEILING CASSETTE 2.0HP", 150, 150, 12, 162⟩]
      { category := some "Aircon Servicing", unit_type := some "wall" }
      ["wall mounted"] (by decide) (by decide) (by decide)).2.1 _).mpr
    ⟨⟨"I1", "Aircon Servicing", "WALL MOUNTED 1.0HP BASIC", 100, 100, 8, 108⟩,
      by decide, by decide, rfl⟩

end QuoteBot
